import Mathlib

/-!
# Verification of the meeting-ai processing pipeline

Shallow embedding of the meeting-ai repository's core logic:
the transcription client (speaker-index mapping, speaker sorting,
polling loop), the Gemini analysis client (JSON extraction and
defensive normalization), the settings store (encrypted API keys),
the processing orchestrator (`processMeeting`) and the HTTP trigger
handler (`POST /api/process/[id]`).

Each definition is translated from the corresponding TypeScript
function; JavaScript runtime behaviours (truthiness, `||` defaults,
`Map` insertion order, default `Array.prototype.sort` comparing
decimal string representations, greedy regex matching) are modelled
explicitly.
-/

namespace MeetingAI

/-! ## Transcription client: speaker index mapping

Source: `mapSpeakerToIndex` in the transcription service.  The JS
`Map<string, number>` is modelled as an association list in insertion
order; `speakerMap.size` is the list length. -/

/-- Model of the JS `Map.get`/`Map.has` lookup on the speaker map:
returns the index stored for `s`, scanning in insertion order. -/
def lookupIdx : List (String × Nat) → String → Option Nat
  | [], _ => none
  | (t, i) :: rest, s => if t = s then some i else lookupIdx rest s

/-- Model of `mapSpeakerToIndex(speaker, speakerMap)`: if the speaker is
already in the map return its index, otherwise assign `speakerMap.size`
as the next dense index and extend the map. -/
def mapSpeakerToIndex (speaker : String) (speakerMap : List (String × Nat)) :
    Nat × List (String × Nat) :=
  match lookupIdx speakerMap speaker with
  | some i => (i, speakerMap)
  | none => (speakerMap.length, speakerMap ++ [(speaker, speakerMap.length)])

/-- Folding `mapSpeakerToIndex` over a sequence of provider speaker
identifiers, as `transcribeAudio` does over `result.utterances`. -/
def assignIndices : List String → List (String × Nat) → List Nat
  | [], _ => []
  | s :: rest, m =>
    let p := mapSpeakerToIndex s m
    p.1 :: assignIndices rest p.2

/-- Specification-side helper: the distinct identifiers of a sequence in
order of first appearance, continuing from an already-seen list `L`. -/
def dedupAcc : List String → List String → List String
  | L, [] => L
  | L, s :: rest => dedupAcc (if s ∈ L then L else L ++ [s]) rest

/-- Specification-side helper: distinct identifiers in first-appearance order. -/
def dedupFirst (us : List String) : List String := dedupAcc [] us

/-- Specification-side helper: zero-based position of the first occurrence
of `s` in a list. -/
def rankIn : List String → String → Nat
  | [], _ => 0
  | t :: rest, s => if t = s then 0 else rankIn rest s + 1

/-- The canonical speaker map after having seen the distinct speakers `L`,
with indices starting at `i`. -/
def canon : List String → Nat → List (String × Nat)
  | [], _ => []
  | s :: rest, i => (s, i) :: canon rest (i + 1)

lemma lookupIdx_canon (L : List String) (i : Nat) (s : String) :
    lookupIdx (canon L i) s =
      (if s ∈ L then some (i + rankIn L s) else none) := by
  induction L generalizing i with
  | nil => simp [canon, lookupIdx]
  | cons t rest ih =>
    by_cases h : t = s
    · subst h
      simp [canon, lookupIdx, rankIn, List.mem_cons]
    · simp only [canon, lookupIdx, rankIn, if_neg h, ih, List.mem_cons]
      have hne : ¬ s = t := fun hh => h hh.symm
      by_cases hm : s ∈ rest
      · simp [hm, hne, Nat.add_assoc, Nat.add_comm 1 (rankIn rest s)]
      · simp [hm, hne]

lemma canon_length (L : List String) (i : Nat) : (canon L i).length = L.length := by
  induction L generalizing i with
  | nil => rfl
  | cons t rest ih => simp [canon, ih]

lemma canon_append_singleton (L : List String) (s : String) (i : Nat) :
    canon (L ++ [s]) i = canon L i ++ [(s, i + L.length)] := by
  induction L generalizing i with
  | nil => simp [canon]
  | cons t rest ih => simp [canon, ih, Nat.add_assoc, Nat.add_comm 1 rest.length]

lemma dedupAcc_exists_suffix (L : List String) (us : List String) :
    ∃ T, dedupAcc L us = L ++ T := by
  induction us generalizing L with
  | nil => exact ⟨[], by simp [dedupAcc]⟩
  | cons s rest ih =>
    by_cases h : s ∈ L
    · obtain ⟨T, hT⟩ := ih L
      exact ⟨T, by simp [dedupAcc, h, hT]⟩
    · obtain ⟨T, hT⟩ := ih (L ++ [s])
      exact ⟨s :: T, by simp [dedupAcc, h, hT]⟩

lemma rankIn_append_left (L T : List String) (s : String) (h : s ∈ L) :
    rankIn (L ++ T) s = rankIn L s := by
  induction L with
  | nil => cases h
  | cons t rest ih =>
    by_cases ht : t = s
    · simp [rankIn, ht]
    · have : s ∈ rest := by
        rcases List.mem_cons.mp h with h1 | h1
        · exact absurd h1.symm ht
        · exact h1
      simp [rankIn, ht, ih this]

lemma rankIn_append_right (L M : List String) (s : String) (h : s ∉ L) :
    rankIn (L ++ M) s = L.length + rankIn M s := by
  induction L with
  | nil => simp
  | cons t rest ih =>
    have ht : ¬ t = s := fun hh => h (by simp [hh])
    have hrest : s ∉ rest := fun hh => h (by simp [hh])
    simp [rankIn, ht, ih hrest, Nat.add_assoc, Nat.add_comm 1 (rankIn M s)]

lemma assignIndices_canon (us L : List String) :
    assignIndices us (canon L 0) =
      us.map (fun s => rankIn (dedupAcc L us) s) := by
  induction us generalizing L with
  | nil => simp [assignIndices, dedupAcc]
  | cons s rest ih =>
    by_cases h : s ∈ L
    · have hlook : lookupIdx (canon L 0) s = some (rankIn L s) := by
        simp [lookupIdx_canon, h]
      obtain ⟨T, hT⟩ := dedupAcc_exists_suffix L rest
      have hrank : rankIn (dedupAcc L rest) s = rankIn L s := by
        rw [hT]; exact rankIn_append_left L T s h
      simp only [assignIndices, mapSpeakerToIndex, hlook, dedupAcc, if_pos h,
        List.map_cons]
      rw [hrank, ih L]
    · have hlook : lookupIdx (canon L 0) s = none := by
        simp [lookupIdx_canon, h]
      obtain ⟨T, hT⟩ := dedupAcc_exists_suffix (L ++ [s]) rest
      have hrank : rankIn (dedupAcc (L ++ [s]) rest) s = L.length := by
        rw [hT, List.append_assoc, rankIn_append_right L ([s] ++ T) s h]
        simp [rankIn]
      have hmap : canon L 0 ++ [(s, (canon L 0).length)] = canon (L ++ [s]) 0 := by
        rw [canon_append_singleton, canon_length]
        simp
      simp only [assignIndices, mapSpeakerToIndex, hlook, dedupAcc, if_neg h, hmap,
        List.map_cons]
      rw [canon_length, hrank, ih (L ++ [s])]

lemma mem_dedupAcc (L us : List String) (s : String) (h : s ∈ us) :
    s ∈ dedupAcc L us := by
  induction us generalizing L with
  | nil => cases h
  | cons t rest ih =>
    rcases List.mem_cons.mp h with h1 | h1
    · subst h1
      by_cases hm : s ∈ L
      · obtain ⟨T, hT⟩ := dedupAcc_exists_suffix L rest
        simp [dedupAcc, hm, hT, List.mem_append, hm]
      · obtain ⟨T, hT⟩ := dedupAcc_exists_suffix (L ++ [s]) rest
        simp [dedupAcc, hm, hT, List.mem_append]
    · by_cases hm : t ∈ L
      · simpa [dedupAcc, hm] using ih L h1
      · simpa [dedupAcc, hm] using ih (L ++ [t]) h1

lemma rankIn_lt_length (L : List String) (s : String) (h : s ∈ L) :
    rankIn L s < L.length := by
  induction L with
  | nil => cases h
  | cons t rest ih =>
    by_cases ht : t = s
    · simp [rankIn, ht]
    · have : s ∈ rest := by
        rcases List.mem_cons.mp h with h1 | h1
        · exact absurd h1.symm ht
        · exact h1
      simp only [rankIn, if_neg ht, List.length_cons]
      exact Nat.succ_lt_succ (ih this)

/-- **C4.** Speaker index assignment is a pure function of first-appearance
order: folding `mapSpeakerToIndex` over any sequence of provider speaker
identifiers (starting from the empty map, as `transcribeAudio` does) assigns
to each utterance the zero-based rank of its speaker in the list of distinct
speakers ordered by first appearance; each assigned index is below the number
of distinct speakers (dense), and `["A","B","A"]` resolves to `[0,1,0]`. -/
theorem mapSpeakerToIndex_first_appearance (us : List String) :
    assignIndices us [] = us.map (fun s => rankIn (dedupFirst us) s) ∧
    (∀ s ∈ us, rankIn (dedupFirst us) s < (dedupFirst us).length) ∧
    assignIndices ["A", "B", "A"] [] = [0, 1, 0] := by
  refine ⟨?_, ?_, by decide⟩
  · have h := assignIndices_canon us []
    simpa [canon, dedupFirst] using h
  · intro s hs
    exact rankIn_lt_length _ s (mem_dedupAcc [] us s hs)

/-! ## Transcription client: data types, language mapping and response mapping -/

/-- The Prisma `Language` enum. -/
inductive Language where
  | ENGLISH
  | PORTUGUESE_BR
  | SPANISH
deriving DecidableEq, Repr

/-- Generic association-list lookup, modelling JS object / `Map` access. -/
def alookup {κ α : Type} [DecidableEq κ] : List (κ × α) → κ → Option α
  | [], _ => none
  | (k, v) :: rest, k' => if k = k' then some v else alookup rest k'

/-- The `languageCodeToEnum` record from the transcription service. -/
def languageCodeToEnum : List (String × Language) :=
  [("en", .ENGLISH), ("en_us", .ENGLISH), ("en_uk", .ENGLISH),
   ("en_au", .ENGLISH), ("pt", .PORTUGUESE_BR), ("es", .SPANISH)]

/-- JS `String.prototype.replace` with a string pattern replaces only the
first occurrence; the source calls `.replace("-", "_")`. -/
def replaceFirstDash : List Char → List Char
  | [] => []
  | c :: cs => if c = '-' then '_' :: cs else c :: replaceFirstDash cs

/-- Model of `mapLanguageCode`: lowercase, replace the first `-` by `_`,
look the code up, defaulting to `ENGLISH` for an absent, empty or
unrecognized code. -/
def mapLanguageCode (code : Option String) : Language :=
  match code with
  | none => .ENGLISH
  | some c =>
    if c = "" then .ENGLISH
    else
      let normalized : String := ⟨replaceFirstDash c.toLower.data⟩
      (alookup languageCodeToEnum normalized).getD .ENGLISH

/-- The fixed `speakerColors` palette. -/
def speakerColors : List String :=
  ["#3b82f6", "#10b981", "#f59e0b", "#8b5cf6",
   "#ec4899", "#06b6d4", "#f97316", "#6366f1"]

/-- Model of `getSpeakerColor`: cyclic palette lookup by index modulo the
palette length (always in bounds). -/
def getSpeakerColor (speakerIndex : Nat) : String :=
  (speakerColors.get? (speakerIndex % speakerColors.length)).getD ""

/-- Provider transcript status (`AssemblyAITranscript.status`). -/
inductive TranscriptStatus where
  | queued
  | processing
  | completed
  | error
deriving DecidableEq, Repr

/-- A provider utterance (`AssemblyAIUtterance`): opaque speaker label,
text, start/end in milliseconds, confidence. -/
structure AssemblyAIUtterance where
  speaker : String
  text : String
  start : Nat
  «end» : Nat
  confidence : Rat
deriving DecidableEq, Repr

/-- A provider transcript JSON (`AssemblyAITranscript`). -/
structure AssemblyAITranscript where
  id : String
  status : TranscriptStatus
  text : String
  utterances : Option (List AssemblyAIUtterance)
  audio_duration : Rat
  language_code : Option String
  error : Option String
deriving DecidableEq, Repr

/-- A mapped utterance (`Utterance` interface): dense speaker index,
timestamps converted from milliseconds to seconds. -/
structure Utterance where
  speaker : Nat
  text : String
  start : Rat
  «end» : Rat
  confidence : Rat
deriving DecidableEq, Repr

/-- The `TranscriptionResult` interface. -/
structure TranscriptionResult where
  utterances : List Utterance
  speakers : List Nat
  duration : Rat
  fullText : String
  detectedLanguage : Language
  rawResponse : AssemblyAITranscript
deriving DecidableEq, Repr

/-- Decimal digit string of a natural number, as JS `String(n)`. -/
def decChars (n : Nat) : List Char := (Nat.repr n).data

/-- Lexicographic (code-unit) comparison of strings, as the JS `<`
operator on strings used by the default `Array.prototype.sort`. -/
def lexLt : List Char → List Char → Bool
  | [], [] => false
  | [], _ :: _ => true
  | _ :: _, [] => false
  | a :: as, b :: bs =>
    if a.toNat < b.toNat then true
    else if b.toNat < a.toNat then false
    else lexLt as bs

/-- Insert into a list sorted ascending by decimal-string order. -/
def insertByStr (x : Nat) : List Nat → List Nat
  | [] => [x]
  | y :: ys => if lexLt (decChars y) (decChars x) then y :: insertByStr x ys else x :: y :: ys

/-- Model of the default (comparator-less) JS `Array.prototype.sort` on
numbers: sorts ascending by the decimal string representation.  Realised
as an insertion sort, which produces the same output as any sort for this
total order on distinct keys. -/
def jsSortNats : List Nat → List Nat
  | [] => []
  | x :: xs => insertByStr x (jsSortNats xs)

/-- Model of `[...new Set(l)]`: distinct elements in insertion order. -/
def dedupFirstNat (l : List Nat) : List Nat :=
  l.foldl (fun acc x => if acc.contains x then acc else acc ++ [x]) []

/-- The pure response-mapping step of `transcribeAudio` (its Step 4):
map provider speaker labels to dense first-appearance indices, convert
milliseconds to seconds, compute the distinct speaker list via
`[...new Set(...)].sort()`, build the concatenated full text, and map
the detected language code. -/
def transcribeMap (result : AssemblyAITranscript) : TranscriptionResult :=
  let rawUtts := result.utterances.getD []
  let idxs := assignIndices (rawUtts.map (·.speaker)) []
  let utterances : List Utterance :=
    List.zipWith
      (fun (u : AssemblyAIUtterance) (i : Nat) =>
        { speaker := i
          text := u.text
          start := (u.start : Rat) / 1000
          «end» := (u.«end» : Rat) / 1000
          confidence := u.confidence })
      rawUtts idxs
  let speakers := jsSortNats (dedupFirstNat (utterances.map (·.speaker)))
  let fullText := String.intercalate "\n\n"
    (utterances.map (fun u => "[Speaker " ++ Nat.repr u.speaker ++ "]: " ++ u.text))
  { utterances := utterances
    speakers := speakers
    duration := result.audio_duration
    fullText := fullText
    detectedLanguage := mapLanguageCode result.language_code
    rawResponse := result }

/-- A transcript response with eleven distinct provider speakers. -/
def elevenSpeakerTranscript : AssemblyAITranscript :=
  { id := "t1"
    status := .completed
    text := ""
    utterances := some
      ((["A", "B", "C", "D", "E", "F", "G", "H", "I", "J", "K"]).map
        (fun s => { speaker := s, text := "hi", start := 0, «end» := 1000, confidence := 1 }))
    audio_duration := 60
    language_code := some "en"
    error := none }

/-- **C8.** With eleven distinct speakers, the `speakers` field produced by
the response mapping of `transcribeAudio` is `[0,1,10,2,3,4,5,6,7,8,9]`:
the comparator-less JS `sort()` orders the indices by their decimal string
representations, so the list is not in ascending numeric order (10 precedes
2), contradicting the claimed sorted-distinct-indices contract. -/
theorem transcribe_speakers_lexicographic_at_eleven :
    (transcribeMap elevenSpeakerTranscript).speakers =
      [0, 1, 10, 2, 3, 4, 5, 6, 7, 8, 9] ∧
    ¬ List.Chain' (· < ·) (transcribeMap elevenSpeakerTranscript).speakers := by
  have h1 : (transcribeMap elevenSpeakerTranscript).speakers =
      [0, 1, 10, 2, 3, 4, 5, 6, 7, 8, 9] := by decide
  refine ⟨h1, ?_⟩
  rw [h1]
  intro h
  simp [List.chain'_cons] at h

/-! ## Transcription client: polling loop (`pollTranscript`) -/

/-- One poll of the provider's transcript endpoint: either an HTTP-level
failure (`!response.ok`) or a transcript JSON. -/
inductive PollResponse where
  | httpError (statusText : String)
  | ok (t : AssemblyAITranscript)
deriving DecidableEq, Repr

/-- A poll response that makes the loop continue: an HTTP-ok transcript
whose status is neither `completed` nor `error`. -/
def nonTerminal : PollResponse → Bool
  | .httpError _ => false
  | .ok r =>
    match r.status with
    | .queued => true
    | .processing => true
    | _ => false

/-- Model of `pollTranscript`'s `while (true)` loop.  `responses k` is the
provider's answer to the `k`-th poll; `fuel` bounds how many polls we
unfold (the source imposes no bound, so no `fuel` suffices in general).
Returns the outcome (`none` while still running after `fuel` polls) and
the total milliseconds slept (3000 after each non-terminal poll). -/
def pollFrom (responses : Nat → PollResponse) : Nat → Nat → Option (Except String AssemblyAITranscript) × Nat
  | 0, _ => (none, 0)
  | fuel + 1, k =>
    match responses k with
    | .httpError st => (some (.error ("AssemblyAI polling failed: " ++ st)), 0)
    | .ok r =>
      if r.status = .completed then (some (.ok r), 0)
      else if r.status = .error then
        (some (.error ("AssemblyAI transcription failed: " ++ r.error.getD "undefined")), 0)
      else
        let p := pollFrom responses fuel (k + 1)
        (p.1, 3000 + p.2)

/-- `pollTranscript` starts its loop at the first poll. -/
def pollTranscript (responses : Nat → PollResponse) (fuel : Nat) :
    Option (Except String AssemblyAITranscript) × Nat :=
  pollFrom responses fuel 0

lemma pollFrom_completed (responses : Nat → PollResponse) (s k : Nat) (r : AssemblyAITranscript)
    (h : ∀ j, j < k → nonTerminal (responses (s + j)) = true)
    (hk : responses (s + k) = .ok r) (hst : r.status = .completed) :
    ∀ fuel, k < fuel → pollFrom responses fuel s = (some (.ok r), 3000 * k) := by
  induction k generalizing s with
  | zero =>
    intro fuel hf
    obtain ⟨fuel', rfl⟩ := Nat.exists_eq_succ_of_ne_zero (Nat.pos_iff_ne_zero.mp hf)
    simp only [Nat.add_zero] at hk
    simp [pollFrom, hk, hst]
  | succ k ih =>
    intro fuel hf
    obtain ⟨fuel', rfl⟩ := Nat.exists_eq_succ_of_ne_zero
      (Nat.pos_iff_ne_zero.mp (Nat.lt_of_le_of_lt (Nat.zero_le _) hf))
    have h0 : nonTerminal (responses s) = true := by
      simpa using h 0 (Nat.succ_pos k)
    have hrec : pollFrom responses fuel' (s + 1) = (some (.ok r), 3000 * k) := by
      refine ih (s + 1) (fun j hj => ?_) ?_ fuel' (Nat.lt_of_succ_lt_succ hf)
      · have := h (j + 1) (Nat.succ_lt_succ hj)
        simpa [Nat.add_assoc, Nat.add_comm 1 j] using this
      · simpa [Nat.add_assoc, Nat.add_comm 1 k] using hk
    cases hresp : responses s with
    | httpError st => rw [hresp] at h0; simp [nonTerminal] at h0
    | ok t =>
      rw [hresp] at h0
      have hnc : ¬ t.status = .completed := by
        intro hc; simp [nonTerminal, hc] at h0
      have hne : ¬ t.status = .error := by
        intro hc; simp [nonTerminal, hc] at h0
      simp only [pollFrom, hresp, if_neg hnc, if_neg hne, hrec]
      simp [Nat.mul_succ, Nat.add_comm]

lemma pollFrom_error (responses : Nat → PollResponse) (s k : Nat) (r : AssemblyAITranscript)
    (h : ∀ j, j < k → nonTerminal (responses (s + j)) = true)
    (hk : responses (s + k) = .ok r) (hst : r.status = .error) :
    ∀ fuel, k < fuel → pollFrom responses fuel s =
      (some (.error ("AssemblyAI transcription failed: " ++ r.error.getD "undefined")), 3000 * k) := by
  induction k generalizing s with
  | zero =>
    intro fuel hf
    obtain ⟨fuel', rfl⟩ := Nat.exists_eq_succ_of_ne_zero (Nat.pos_iff_ne_zero.mp hf)
    simp only [Nat.add_zero] at hk
    have : ¬ r.status = .completed := by rw [hst]; intro hc; cases hc
    simp [pollFrom, hk, hst, this]
  | succ k ih =>
    intro fuel hf
    obtain ⟨fuel', rfl⟩ := Nat.exists_eq_succ_of_ne_zero
      (Nat.pos_iff_ne_zero.mp (Nat.lt_of_le_of_lt (Nat.zero_le _) hf))
    have h0 : nonTerminal (responses s) = true := by
      simpa using h 0 (Nat.succ_pos k)
    have hrec : pollFrom responses fuel' (s + 1) =
        (some (.error ("AssemblyAI transcription failed: " ++ r.error.getD "undefined")), 3000 * k) := by
      refine ih (s + 1) (fun j hj => ?_) ?_ fuel' (Nat.lt_of_succ_lt_succ hf)
      · have := h (j + 1) (Nat.succ_lt_succ hj)
        simpa [Nat.add_assoc, Nat.add_comm 1 j] using this
      · simpa [Nat.add_assoc, Nat.add_comm 1 k] using hk
    cases hresp : responses s with
    | httpError st => rw [hresp] at h0; simp [nonTerminal] at h0
    | ok t =>
      rw [hresp] at h0
      have hnc : ¬ t.status = .completed := by
        intro hc; simp [nonTerminal, hc] at h0
      have hne : ¬ t.status = .error := by
        intro hc; simp [nonTerminal, hc] at h0
      simp only [pollFrom, hresp, if_neg hnc, if_neg hne, hrec]
      simp [Nat.mul_succ, Nat.add_comm]

lemma pollFrom_diverges (responses : Nat → PollResponse)
    (h : ∀ j, nonTerminal (responses j) = true) :
    ∀ fuel s, pollFrom responses fuel s = (none, 3000 * fuel) := by
  intro fuel
  induction fuel with
  | zero => intro s; simp [pollFrom]
  | succ fuel ih =>
    intro s
    have h0 := h s
    cases hresp : responses s with
    | httpError st => rw [hresp] at h0; simp [nonTerminal] at h0
    | ok t =>
      rw [hresp] at h0
      have hnc : ¬ t.status = .completed := by
        intro hc; simp [nonTerminal, hc] at h0
      have hne : ¬ t.status = .error := by
        intro hc; simp [nonTerminal, hc] at h0
      simp only [pollFrom, hresp, if_neg hnc, if_neg hne, ih (s + 1)]
      simp [Nat.mul_succ, Nat.add_comm]

/-- **C9.** `pollTranscript` sleeps a fixed 3000 ms after every
non-terminal poll and has no attempt cap: if the first terminal provider
response is `completed` at poll `k` it returns that result having slept
`3000·k` ms; if it is `error` at poll `k` it fails with a transcription
error carrying the provider's message after `3000·k` ms; and if every
response is non-terminal it is still running after `fuel` polls, for
every `fuel` — it never terminates. -/
theorem pollTranscript_spec (responses : Nat → PollResponse) :
    (∀ k r, (∀ j, j < k → nonTerminal (responses j) = true) →
      responses k = .ok r → r.status = .completed →
      ∀ fuel, k < fuel →
        pollTranscript responses fuel = (some (.ok r), 3000 * k)) ∧
    (∀ k r, (∀ j, j < k → nonTerminal (responses j) = true) →
      responses k = .ok r → r.status = .error →
      ∀ fuel, k < fuel →
        pollTranscript responses fuel =
          (some (.error ("AssemblyAI transcription failed: " ++ r.error.getD "undefined")), 3000 * k)) ∧
    ((∀ j, nonTerminal (responses j) = true) →
      ∀ fuel, pollTranscript responses fuel = (none, 3000 * fuel)) := by
  refine ⟨?_, ?_, ?_⟩
  · intro k r h hk hst fuel hf
    exact pollFrom_completed responses 0 k r (by simpa using h) (by simpa using hk) hst fuel hf
  · intro k r h hk hst fuel hf
    exact pollFrom_error responses 0 k r (by simpa using h) (by simpa using hk) hst fuel hf
  · intro h fuel
    exact pollFrom_diverges responses h fuel 0

/-- A provider that reports `processing` twice and then `completed`. -/
def pollDemoCompleted : AssemblyAITranscript :=
  { id := "t2", status := .completed, text := "done", utterances := none,
    audio_duration := 10, language_code := some "en", error := none }

/-- A provider that is `processing` on polls 0 and 1 and `completed` on poll 2. -/
def pollDemoResponses (k : Nat) : PollResponse :=
  if k < 2 then
    .ok { id := "t2", status := .processing, text := "", utterances := none,
          audio_duration := 10, language_code := none, error := none }
  else .ok pollDemoCompleted

theorem pollTranscript_spec_witness :
    pollTranscript pollDemoResponses 3 = (some (.ok pollDemoCompleted), 6000) := by
  have h := (pollTranscript_spec pollDemoResponses).1 2 pollDemoCompleted
    (by decide) (by decide) (by decide) 3 (by decide)
  simpa using h

/-! ## Analysis client (`analyzeMeeting` in gemini.ts): JSON values

JS values produced by `JSON.parse` are modelled by `Json` (numbers as
integers: the fragment the analysis fields use).  An absent property is
`Option.none` (JS `undefined`), distinct from `Json.null`. -/

inductive Json where
  | null
  | bool (b : Bool)
  | num (n : Int)
  | str (s : String)
  | arr (elems : List Json)
  | obj (fields : List (String × Json))

/-- Whether a JS value is `null` (property access on it throws). -/
def Json.isNull : Json → Bool
  | .null => true
  | .bool _ => false
  | .num _ => false
  | .str _ => false
  | .arr _ => false
  | .obj _ => false

/-- JS property access on a non-null value: a field of an object, and
`undefined` on every other value.  (Access on `null` throws; the callers
below test `isNull` first.) -/
def jsGetF : Json → String → Option Json
  | .obj fs, k => alookup fs k
  | _, _ => none

/-- JS truthiness of a value. -/
def jsTruthy : Json → Bool
  | .null => false
  | .bool b => b
  | .num n => if n = 0 then false else true
  | .str s => if s = "" then false else true
  | .arr _ => true
  | .obj _ => true

/-- JS truthiness of a possibly-undefined value. -/
def jsTruthyOpt : Option Json → Bool
  | none => false
  | some v => jsTruthy v

/-- The JS `x || d` default: `d` when `x` is undefined or falsy. -/
def jsOr (x : Option Json) (d : Json) : Json :=
  match x with
  | some v => if jsTruthy v then v else d
  | none => d

/-- Integer value of a trimmed decimal string, `none` when the string is
not a plain optionally-signed decimal numeral (JS `NaN`). -/
def decStrToInt : List Char → Option Int
  | [] => none
  | '-' :: ds =>
    if ds ≠ [] ∧ ds.all (·.isDigit) then
      some (-(Int.ofNat (ds.foldl (fun a c => a * 10 + (c.toNat - 48)) 0)))
    else none
  | ds =>
    if ds.all (·.isDigit) then
      some (Int.ofNat (ds.foldl (fun a c => a * 10 + (c.toNat - 48)) 0))
    else none

/-- JS `ToNumber` on the `Json` fragment, `none` modelling `NaN`
(a single-element array converts via its element, per JS array-to-
primitive coercion; fractional numbers do not arise in this model). -/
def jsToNum : Json → Option Int
  | .null => some 0
  | .bool b => some (if b then 1 else 0)
  | .num n => some n
  | .str s =>
    let t := s.data.dropWhile (· = ' ')
    let t := (t.reverse.dropWhile (· = ' ')).reverse
    if t = [] then some 0 else decStrToInt t
  | .arr [] => some 0
  | .arr [v] => jsToNum v
  | .arr _ => none
  | .obj _ => none

/-- `Math.min(cap, x)` with `NaN` propagation. -/
def jsMinCap (cap : Int) (x : Option Int) : Option Int := x.map (min cap)

/-- `Math.max(cap, x)` with `NaN` propagation. -/
def jsMaxCap (cap : Int) (x : Option Int) : Option Int := x.map (max cap)

/-! ## Analysis client: defensive normalization of the parsed response -/

/-- A normalized topic (`title`/`description` keep their JS values;
`importance` is a JS number, `none` = `NaN`). -/
structure TopicN where
  title : Json
  description : Json
  importance : Option Int

/-- A normalized key point. -/
structure KeyPointN where
  point : Json
  context : Option Json
  speakerIndex : Option Json

/-- A normalized action item. -/
structure ActionItemN where
  item : Json
  assignee : Option Json
  priority : Json

/-- A kept speaker-name entry. -/
structure SpeakerNameN where
  speakerIndex : Json
  name : Json

/-- The normalized analysis result built by `analyzeMeeting`'s parse
stage (`rawResponse` is opaque and omitted). -/
structure AnalysisResultJ where
  summary : Json
  topics : List TopicN
  keyPoints : List KeyPointN
  actionItems : List ActionItemN
  speakerNames : List SpeakerNameN
  meetingDocument : Json

/-- One topic of the `.map` over `jsonData.topics || []`; property access
on a `null` element throws (`Except.error`), ending the whole parse in
the fallback branch. -/
def normalizeTopic (t : Json) : Except Unit TopicN :=
  if t.isNull then .error ()
  else
    .ok
      { title := jsOr (jsGetF t "title") (.str "Untitled Topic")
        description := jsOr (jsGetF t "description") (.str "")
        importance := jsMinCap 5 (jsMaxCap 1 (jsToNum (jsOr (jsGetF t "importance") (.num 3)))) }

/-- One key point: `context` uses `|| undefined`, `speakerIndex` uses
`?? undefined` (nullish coalescing, so `0` is kept). -/
def normalizeKeyPoint (k : Json) : Except Unit KeyPointN :=
  if k.isNull then .error ()
  else
    .ok
      { point := jsOr (jsGetF k "point") (.str "")
        context :=
          match jsGetF k "context" with
          | some v => if jsTruthy v then some v else none
          | none => none
        speakerIndex :=
          match jsGetF k "speakerIndex" with
          | some .null => none
          | some v => some v
          | none => none }

/-- One action item: a falsy or absent `priority` defaults to `"medium"`. -/
def normalizeActionItem (a : Json) : Except Unit ActionItemN :=
  if a.isNull then .error ()
  else
    .ok
      { item := jsOr (jsGetF a "item") (.str "")
        assignee :=
          match jsGetF a "assignee" with
          | some v => if jsTruthy v then some v else none
          | none => none
        priority := jsOr (jsGetF a "priority") (.str "medium") }

/-- The `.filter(s => s.name && s.speakerIndex !== undefined).map(...)`
over `jsonData.speakerNames || []`: entries with a falsy name or an
absent `speakerIndex` property are dropped (a `null` index is `!==
undefined` and kept). -/
def normalizeSpeakerNames : List Json → Except Unit (List SpeakerNameN)
  | [] => .ok []
  | s :: rest =>
    if s.isNull then .error ()
    else
      match normalizeSpeakerNames rest with
      | .error e => .error e
      | .ok tail =>
        if jsTruthyOpt (jsGetF s "name") && (jsGetF s "speakerIndex").isSome then
          .ok ({ speakerIndex := (jsGetF s "speakerIndex").getD .null
                 name := (jsGetF s "name").getD .null } :: tail)
        else .ok tail

/-- `(x || [])` followed by `.map`: a truthy non-array throws. -/
def jsArrOf (x : Option Json) : Except Unit (List Json) :=
  match jsOr x (.arr []) with
  | .arr l => .ok l
  | _ => .error ()

/-- `.map` with a fallible body, throwing at the first error. -/
def mapExcept {α β : Type} (f : α → Except Unit β) : List α → Except Unit (List β)
  | [] => .ok []
  | x :: rest =>
    match f x with
    | .error e => .error e
    | .ok y =>
      match mapExcept f rest with
      | .error e => .error e
      | .ok ys => .ok (y :: ys)

/-- The `parsed = { ... }` construction of `analyzeMeeting` applied to the
value returned by `JSON.parse`: per-field defaults and normalization; any
thrown `TypeError` surfaces as `Except.error` and is caught by the
enclosing `try`. -/
def normalizeAnalysis (j : Json) : Except Unit AnalysisResultJ :=
  if j.isNull then .error ()
  else
    match jsArrOf (jsGetF j "topics") with
    | .error e => .error e
    | .ok ts =>
      match mapExcept normalizeTopic ts with
      | .error e => .error e
      | .ok topics =>
        match jsArrOf (jsGetF j "keyPoints") with
        | .error e => .error e
        | .ok ks =>
          match mapExcept normalizeKeyPoint ks with
          | .error e => .error e
          | .ok keyPoints =>
            match jsArrOf (jsGetF j "actionItems") with
            | .error e => .error e
            | .ok items =>
              match mapExcept normalizeActionItem items with
              | .error e => .error e
              | .ok actionItems =>
                match jsArrOf (jsGetF j "speakerNames") with
                | .error e => .error e
                | .ok sns =>
                  match normalizeSpeakerNames sns with
                  | .error e => .error e
                  | .ok speakerNames =>
                    .ok
                      { summary := jsOr (jsGetF j "summary") (.str "No summary available.")
                        topics := topics
                        keyPoints := keyPoints
                        actionItems := actionItems
                        speakerNames := speakerNames
                        meetingDocument := jsOr (jsGetF j "meetingDocument") (.str "") }

/-! ## Analysis client: JSON span extraction and parsing

`response.match(/\x7b[\s\S]*\x7d/)` matches greedily from the first
opening brace (a later closing brace must exist) to the last closing
brace of the whole response; an opening brace with no closing brace after
it cannot start a match, and then no later opening brace can either. -/

/-- Index of the first character satisfying `p`. -/
def firstIdx (p : Char → Bool) : List Char → Option Nat
  | [] => none
  | c :: cs => if p c then some 0 else (firstIdx p cs).map (· + 1)

/-- Index of the last character satisfying `p`. -/
def lastIdx (p : Char → Bool) (cs : List Char) : Option Nat :=
  (firstIdx p cs.reverse).map (fun k => cs.length - 1 - k)

/-- Model of `response.match(/\x7b[\s\S]*\x7d/)`: the span from the first
opening brace to the last closing brace after it, when both exist. -/
def braceSpan (cs : List Char) : Option (List Char) :=
  match firstIdx (fun c => c = '\x7b') cs with
  | none => none
  | some i =>
    match lastIdx (fun c => c = '\x7d') (cs.drop (i + 1)) with
    | none => none
    | some j => some ((cs.drop i).take (j + 2))

/-- Whitespace skipping for the JSON parser. -/
def skipWs : List Char → List Char
  | [] => []
  | c :: cs =>
    if c = ' ' ∨ c = '\n' ∨ c = '\t' ∨ c = '\r' then skipWs cs else c :: cs

/-- A JSON string escape (the fragment `JSON.parse` accepts that this
model supports; unicode escapes are out of scope). -/
def escChar (e : Char) : Char :=
  if e = 'n' then '\n' else if e = 't' then '\t' else if e = 'r' then '\r' else e

/-- String-literal body: characters up to the closing quote. -/
def parseStrChars : List Char → List Char → Option (List Char × List Char)
  | _acc, [] => none
  | acc, '"' :: cs => some (acc.reverse, cs)
  | _acc, ['\\'] => none
  | acc, '\\' :: e :: cs => parseStrChars (escChar e :: acc) cs
  | acc, c :: cs => parseStrChars (c :: acc) cs

/-- Leading decimal digits and the remaining input. -/
def digitsVal : List Char → Nat → Nat × List Char
  | [], acc => (acc, [])
  | c :: cs, acc =>
    if c.isDigit then digitsVal cs (acc * 10 + (c.toNat - 48)) else (acc, c :: cs)

/-- An integer JSON number (this model rejects fractions and exponents,
which the analysis fields never use). -/
def parseIntNum : List Char → Option (Int × List Char)
  | '-' :: cs =>
    match cs with
    | c :: _ =>
      if c.isDigit then
        let p := digitsVal cs 0
        match p.2 with
        | '.' :: _ => none
        | 'e' :: _ => none
        | 'E' :: _ => none
        | _ => some (-(Int.ofNat p.1), p.2)
      else none
    | [] => none
  | cs =>
    match cs with
    | c :: _ =>
      if c.isDigit then
        let p := digitsVal cs 0
        match p.2 with
        | '.' :: _ => none
        | 'e' :: _ => none
        | 'E' :: _ => none
        | _ => some (Int.ofNat p.1, p.2)
      else none
    | [] => none

mutual

/-- Recursive-descent JSON value parser with explicit fuel. -/
def parseVal : Nat → List Char → Option (Json × List Char)
  | 0, _ => none
  | fuel + 1, cs =>
    match skipWs cs with
    | [] => none
    | c :: rest =>
      if c = '\x7b' then parseFields fuel rest []
      else if c = '[' then parseElems fuel rest []
      else if c = '"' then
        (parseStrChars [] rest).map (fun p => (Json.str ⟨p.1⟩, p.2))
      else if c = 't' then
        if rest.take 3 = ['r', 'u', 'e'] then some (.bool true, rest.drop 3) else none
      else if c = 'f' then
        if rest.take 4 = ['a', 'l', 's', 'e'] then some (.bool false, rest.drop 4) else none
      else if c = 'n' then
        if rest.take 3 = ['u', 'l', 'l'] then some (.null, rest.drop 3) else none
      else
        (parseIntNum (c :: rest)).map (fun p => (Json.num p.1, p.2))

/-- Array elements after `[`, accumulating parsed elements. -/
def parseElems : Nat → List Char → List Json → Option (Json × List Char)
  | 0, _, _ => none
  | fuel + 1, cs, acc =>
    match skipWs cs with
    | [] => none
    | c :: rest =>
      if c = ']' ∧ acc.isEmpty then some (.arr [], rest)
      else
        match parseVal fuel (c :: rest) with
        | none => none
        | some (v, cs2) =>
          match skipWs cs2 with
          | ',' :: cs3 => parseElems fuel cs3 (acc ++ [v])
          | ']' :: cs3 => some (.arr (acc ++ [v]), cs3)
          | _ => none

/-- Object fields after the opening brace; a repeated key overwrites the
earlier one, as JS object construction does. -/
def parseFields : Nat → List Char → List (String × Json) → Option (Json × List Char)
  | 0, _, _ => none
  | fuel + 1, cs, acc =>
    match skipWs cs with
    | [] => none
    | c :: rest =>
      if c = '\x7d' ∧ acc.isEmpty then some (.obj [], rest)
      else if c = '"' then
        match parseStrChars [] rest with
        | none => none
        | some (kcs, cs2) =>
          match skipWs cs2 with
          | ':' :: cs3 =>
            match parseVal fuel cs3 with
            | none => none
            | some (v, cs4) =>
              let acc2 := acc.filter (fun p => p.1 ≠ (⟨kcs⟩ : String)) ++ [(⟨kcs⟩, v)]
              match skipWs cs4 with
              | ',' :: cs5 => parseFields fuel cs5 acc2
              | '\x7d' :: cs5 => some (.obj acc2, cs5)
              | _ => none
          | _ => none
      else none

end

/-- Model of `JSON.parse` on the extracted span: a full parse of the
input (up to trailing whitespace), with fuel ample for the input size. -/
def Json.parse (cs : List Char) : Option Json :=
  match parseVal (2 * cs.length + 4) cs with
  | some (v, rest) => if skipWs rest = [] then some v else none
  | none => none

/-- The graceful-degradation result of `analyzeMeeting`'s `catch` branch:
the raw response text as the summary, all structured lists empty. -/
def fallbackAnalysis (response : List Char) : AnalysisResultJ :=
  { summary := .str ⟨response⟩
    topics := []
    keyPoints := []
    actionItems := []
    speakerNames := []
    meetingDocument := .str "" }

/-- The parse stage of `analyzeMeeting` applied to the raw LLM response
text: extract the brace span, `JSON.parse` it, normalize; any failure
(no span, parse error, or a thrown `TypeError` during normalization)
lands in the `catch` branch and returns the fallback. -/
def analyzeParse (response : List Char) : AnalysisResultJ :=
  match braceSpan response with
  | none => fallbackAnalysis response
  | some span =>
    match Json.parse span with
    | none => fallbackAnalysis response
    | some j =>
      match normalizeAnalysis j with
      | .error _ => fallbackAnalysis response
      | .ok r => r

/-! ## C6: JSON extraction behaviour of `analyzeMeeting` -/

lemma firstIdx_none (p : Char → Bool) (cs : List Char) (h : ∀ c ∈ cs, p c = false) :
    firstIdx p cs = none := by
  induction cs with
  | nil => rfl
  | cons c rest ih =>
    simp [firstIdx, h c (List.mem_cons_self c rest),
      ih (fun d hd => h d (List.mem_cons_of_mem c hd))]

lemma firstIdx_append_of_not (p : Char → Bool) (a b : List Char)
    (h : ∀ c ∈ a, p c = false) :
    firstIdx p (a ++ b) = (firstIdx p b).map (· + a.length) := by
  induction a with
  | nil => cases hb : firstIdx p b <;> simp [hb]
  | cons c cs ih =>
    have hc : p c = false := h c (List.mem_cons_self c cs)
    have ih2 := ih (fun d hd => h d (List.mem_cons_of_mem c hd))
    cases hb : firstIdx p b <;>
      simp [firstIdx, hc, ih2, hb, Nat.add_assoc, Nat.add_comm 1 cs.length]

lemma take_into (x : Char) (mid post : List Char) :
    (mid ++ x :: post).take (mid.length + 1) = mid ++ [x] := by
  induction mid with
  | nil => rfl
  | cons c cs ih => simpa [List.take_succ_cons] using ih

lemma braceSpan_wrapped (pre mid post : List Char)
    (hpre : '\x7b' ∉ pre) (hpost : '\x7d' ∉ post) :
    braceSpan (pre ++ '\x7b' :: (mid ++ '\x7d' :: post)) =
      some ('\x7b' :: (mid ++ ['\x7d'])) := by
  have hp : ∀ c ∈ pre, (fun c => decide (c = '\x7b')) c = false := by
    intro c hc
    exact decide_eq_false (fun h => hpre (h ▸ hc))
  have h1 : firstIdx (fun c => c = '\x7b') (pre ++ '\x7b' :: (mid ++ '\x7d' :: post)) =
      some pre.length := by
    rw [firstIdx_append_of_not _ _ _ hp]
    simp [firstIdx]
  have hdrop1 : (pre ++ '\x7b' :: (mid ++ '\x7d' :: post)).drop (pre.length + 1) =
      mid ++ '\x7d' :: post := by
    have hsplit : pre ++ '\x7b' :: (mid ++ '\x7d' :: post) =
        (pre ++ ['\x7b']) ++ (mid ++ '\x7d' :: post) := by simp
    rw [hsplit]
    have hlen : (pre ++ ['\x7b']).length = pre.length + 1 := by simp
    rw [← hlen, List.drop_left]
  have hq : ∀ c ∈ post.reverse, (fun c => decide (c = '\x7d')) c = false := by
    intro c hc
    exact decide_eq_false (fun h => hpost (h ▸ (List.mem_reverse.mp hc)))
  have h2 : lastIdx (fun c => c = '\x7d') (mid ++ '\x7d' :: post) = some mid.length := by
    unfold lastIdx
    have hrev : (mid ++ '\x7d' :: post).reverse = post.reverse ++ '\x7d' :: mid.reverse := by
      simp
    rw [hrev, firstIdx_append_of_not _ _ _ hq]
    show some ((mid ++ '\x7d' :: post).length - 1 - (0 + post.reverse.length)) =
      some mid.length
    have harith : (mid ++ '\x7d' :: post).length - 1 - (0 + post.reverse.length) =
        mid.length := by
      simp only [List.length_append, List.length_cons, List.length_reverse]
      omega
    rw [harith]
  have hdrop0 : (pre ++ '\x7b' :: (mid ++ '\x7d' :: post)).drop pre.length =
      '\x7b' :: (mid ++ '\x7d' :: post) := List.drop_left pre _
  have htake : ('\x7b' :: (mid ++ '\x7d' :: post)).take (mid.length + 2) =
      '\x7b' :: (mid ++ ['\x7d']) := by
    rw [show mid.length + 2 = mid.length + 1 + 1 from rfl, List.take_succ_cons, take_into]
  simp only [braceSpan, h1, hdrop1, h2, hdrop0, htake]

/-- The response text containing two complete JSON objects separated by
prose: the claimed behaviour would parse the first one. -/
def twoObjectResponse : List Char :=
  ("\x7b\"summary\":\"a\"\x7d and \x7b\"summary\":\"b\"\x7d").data

/-- The first JSON object occurring in `twoObjectResponse`. -/
def firstObjectChars : List Char := ("\x7b\"summary\":\"a\"\x7d").data

/-- **C6 counterexample.** The first JSON object of `twoObjectResponse`
exists and parses (to an object whose normalization succeeds), yet
`analyzeMeeting`'s parse stage returns the fallback on the full response:
the greedy regex spans from the first opening to the last closing brace,
covering both objects, and that span is not valid JSON — so the function
does not "extract the first JSON object and parse it". -/
theorem analyzeParse_two_objects_fallback :
    Json.parse firstObjectChars = some (.obj [("summary", .str "a")]) ∧
    normalizeAnalysis (.obj [("summary", .str "a")]) =
      .ok { summary := .str "a", topics := [], keyPoints := [], actionItems := [],
            speakerNames := [], meetingDocument := .str "" } ∧
    analyzeParse twoObjectResponse = fallbackAnalysis twoObjectResponse ∧
    (fallbackAnalysis twoObjectResponse).summary ≠ Json.str "a" :=
  ⟨rfl, rfl, rfl, by
    intro h
    injection h with h1
    exact absurd h1 (by decide)⟩

/-- **C6 (amended).** `analyzeMeeting` extracts the span from the first
opening brace to the last closing brace of the response and parses it:
when a JSON object is wrapped in prose or code fences containing no
further braces, exactly that object is extracted, and the final result is
its parsed, normalized form; a response containing no opening brace at
all (no JSON object) yields, without throwing, the fallback result whose
summary is the raw response text with all structured lists empty, and so
does any response whose extracted span fails to parse. -/
theorem analyzeParse_span_extraction :
    (∀ pre mid post, '\x7b' ∉ pre → '\x7d' ∉ post →
      braceSpan (pre ++ '\x7b' :: (mid ++ '\x7d' :: post)) =
        some ('\x7b' :: (mid ++ ['\x7d']))) ∧
    (∀ pre mid post v r, '\x7b' ∉ pre → '\x7d' ∉ post →
      Json.parse ('\x7b' :: (mid ++ ['\x7d'])) = some v →
      normalizeAnalysis v = .ok r →
      analyzeParse (pre ++ '\x7b' :: (mid ++ '\x7d' :: post)) = r) ∧
    (∀ resp, '\x7b' ∉ resp →
      analyzeParse resp =
        { summary := .str ⟨resp⟩, topics := [], keyPoints := [], actionItems := [],
          speakerNames := [], meetingDocument := .str "" }) ∧
    (∀ resp span, braceSpan resp = some span → Json.parse span = none →
      analyzeParse resp =
        { summary := .str ⟨resp⟩, topics := [], keyPoints := [], actionItems := [],
          speakerNames := [], meetingDocument := .str "" }) := by
  refine ⟨braceSpan_wrapped, ?_, ?_, ?_⟩
  · intro pre mid post v r hpre hpost hparse hnorm
    have hspan := braceSpan_wrapped pre mid post hpre hpost
    simp only [analyzeParse, hspan, hparse, hnorm]
  · intro resp hresp
    have hspan : braceSpan resp = none := by
      have hnone : firstIdx (fun c => c = '\x7b') resp = none :=
        firstIdx_none _ _
          (fun c hc => decide_eq_false (fun (h : c = '\x7b') => hresp (h ▸ hc)))
      simp only [braceSpan, hnone]
    simp only [analyzeParse, hspan]
    rfl
  · intro resp span hspan hparse
    simp only [analyzeParse, hspan, hparse]
    rfl

theorem analyzeParse_span_extraction_witness :
    analyzeParse (("Sure! ").data ++ '\x7b' :: (("\"summary\":\"a\"").data ++ '\x7d' :: (" done").data)) =
      { summary := .str "a", topics := [], keyPoints := [], actionItems := [],
        speakerNames := [], meetingDocument := .str "" } :=
  (analyzeParse_span_extraction).2.1 ("Sure! ").data ("\"summary\":\"a\"").data (" done").data
    (.obj [("summary", .str "a")])
    { summary := .str "a", topics := [], keyPoints := [], actionItems := [],
      speakerNames := [], meetingDocument := .str "" }
    (by decide) (by decide) rfl rfl

/-! ## C5: normalization of importance, priority and speaker names -/

/-- The parsed response whose single topic has numeric importance `0`. -/
def importanceZeroResponse : List Char :=
  ("\x7b\"topics\":[\x7b\"importance\":0\x7d]\x7d").data

/-- **C5 counterexample.** A parsed response whose topic has importance
`0` is normalized to importance `3` (the `|| 3` default fires on the
falsy number `0`), not to the clamp of `0` into `[1,5]`, which is `1`:
importance is not clamped for every input. -/
theorem topic_importance_zero_not_clamped :
    (analyzeParse importanceZeroResponse).topics.map (fun t => t.importance) = [some 3] ∧
    ¬ ((3 : Int) = min 5 (max 1 0)) :=
  ⟨by decide, by decide⟩

/-- **C5 (amended).** For every parsed analysis response: a topic whose
`importance` is a nonzero number `n` gets `min 5 (max 1 n)`, the clamp of
`n` into `[1,5]` (so 9 becomes 5 and -1 becomes 1); a missing, `null` or
zero importance defaults to `3`; an action item with no `priority` field
gets priority `"medium"`; and a speaker-name entry with a falsy name or
no `speakerIndex` field is dropped. -/
theorem analysis_normalization_defaults :
    (∀ fs n r, normalizeTopic (.obj fs) = .ok r →
      alookup fs "importance" = some (.num n) → n ≠ 0 →
      r.importance = some (min 5 (max 1 n)) ∧
        1 ≤ min 5 (max 1 n) ∧ min 5 (max 1 n) ≤ 5) ∧
    (∀ fs r, normalizeTopic (.obj fs) = .ok r →
      (alookup fs "importance" = none ∨ alookup fs "importance" = some .null ∨
        alookup fs "importance" = some (.num 0)) →
      r.importance = some 3) ∧
    (∀ fs r, normalizeActionItem (.obj fs) = .ok r →
      alookup fs "priority" = none →
      r.priority = .str "medium") ∧
    (∀ s rest, s.isNull = false →
      (jsTruthyOpt (jsGetF s "name") = false ∨ jsGetF s "speakerIndex" = none) →
      normalizeSpeakerNames (s :: rest) = normalizeSpeakerNames rest) := by
  refine ⟨?_, ?_, ?_, ?_⟩
  · intro fs n r hr himp hn
    have hred : normalizeTopic (Json.obj fs) = .ok
        { title := jsOr (alookup fs "title") (.str "Untitled Topic")
          description := jsOr (alookup fs "description") (.str "")
          importance :=
            jsMinCap 5 (jsMaxCap 1 (jsToNum (jsOr (alookup fs "importance") (.num 3)))) } :=
      rfl
    rw [hred] at hr
    injection hr with hr
    subst hr
    refine ⟨?_, by omega, by omega⟩
    simp [himp, jsOr, jsTruthy, hn, jsToNum, jsMaxCap, jsMinCap]
  · intro fs r hr himp
    have hred : normalizeTopic (Json.obj fs) = .ok
        { title := jsOr (alookup fs "title") (.str "Untitled Topic")
          description := jsOr (alookup fs "description") (.str "")
          importance :=
            jsMinCap 5 (jsMaxCap 1 (jsToNum (jsOr (alookup fs "importance") (.num 3)))) } :=
      rfl
    rw [hred] at hr
    injection hr with hr
    subst hr
    rcases himp with h | h | h <;>
      simp [h, jsOr, jsTruthy, jsToNum, jsMaxCap, jsMinCap]
  · intro fs r hr hpr
    have hred : normalizeActionItem (Json.obj fs) = .ok
        { item := jsOr (alookup fs "item") (.str "")
          assignee :=
            match alookup fs "assignee" with
            | some v => if jsTruthy v then some v else none
            | none => none
          priority := jsOr (alookup fs "priority") (.str "medium") } :=
      rfl
    rw [hred] at hr
    injection hr with hr
    subst hr
    simp [hpr, jsOr]
  · intro s rest hs hcond
    have hfalse : (jsTruthyOpt (jsGetF s "name") && (jsGetF s "speakerIndex").isSome) = false := by
      rcases hcond with h | h <;> simp [h]
    rw [normalizeSpeakerNames, hs]
    cases hrest : normalizeSpeakerNames rest <;> simp [hfalse]

theorem analysis_normalization_defaults_witness :
    ({ title := Json.str "Untitled Topic", description := Json.str "",
       importance := some 5 } : TopicN).importance = some (min 5 (max 1 9)) ∧
      (1 : Int) ≤ min 5 (max 1 9) ∧ (min 5 (max 1 9) : Int) ≤ 5 :=
  (analysis_normalization_defaults).1 [("importance", .num 9)] 9
    { title := Json.str "Untitled Topic", description := Json.str "",
      importance := some 5 }
    rfl rfl (by decide)

/-! ## Settings store (`getApiKey` / `getAssemblyAIApiKey`)

Decryption (`decrypt` from the encryption utility, an AES wrapper over
node crypto) is abstracted as an oracle `decryptFn` that either yields
the plaintext or throws; `getApiKey` catches the throw and returns
`null`. -/

/-- `API_KEYS.assemblyai`. -/
def assemblyaiKey : String := "ASSEMBLYAI_API_KEY"

/-- `API_KEYS.gemini`. -/
def geminiKey : String := "GEMINI_API_KEY"

/-- Model of `getApiKey`: look the key up in the `Setting` table, decrypt
the stored value, and return `null` both when no row exists and when
decryption throws. -/
def getApiKey (decryptFn : String → Except String String)
    (settings : List (String × String)) (key : String) : Option String :=
  match alookup settings key with
  | none => none
  | some v =>
    match decryptFn v with
    | .ok s => some s
    | .error _ => none

/-- Model of `getAssemblyAIApiKey`: throw the credential error when
`getApiKey` yields `null`. -/
def getAssemblyAIApiKey (decryptFn : String → Except String String)
    (settings : List (String × String)) : Except String String :=
  match getApiKey decryptFn settings assemblyaiKey with
  | some k => .ok k
  | none => .error "AssemblyAI API key not configured. Please add it in Settings."

/-- **C10.** A stored credential whose decryption throws makes `getApiKey`
return `null` rather than raising, so at the public interface a corrupted
stored API key is indistinguishable from an unconfigured one: both make
`getAssemblyAIApiKey` (and hence the pipeline) fail with the same
"API key not configured" credential error, never a decryption error. -/
theorem getApiKey_corrupted_like_missing (decryptFn : String → Except String String)
    (settings : List (String × String)) (v e : String)
    (hv : alookup settings assemblyaiKey = some v)
    (hd : decryptFn v = .error e) :
    getApiKey decryptFn settings assemblyaiKey = none ∧
    getApiKey decryptFn settings assemblyaiKey = getApiKey decryptFn [] assemblyaiKey ∧
    getAssemblyAIApiKey decryptFn settings =
      .error "AssemblyAI API key not configured. Please add it in Settings." ∧
    getAssemblyAIApiKey decryptFn settings = getAssemblyAIApiKey decryptFn [] := by
  have h1 : getApiKey decryptFn settings assemblyaiKey = none := by
    simp [getApiKey, hv, hd]
  have h0 : getApiKey decryptFn [] assemblyaiKey = none := by
    simp [getApiKey, alookup]
  refine ⟨h1, by rw [h1, h0], ?_, ?_⟩
  · simp [getAssemblyAIApiKey, h1]
  · simp [getAssemblyAIApiKey, h1, h0]

theorem getApiKey_corrupted_like_missing_witness :
    getAssemblyAIApiKey (fun _ => Except.error "bad decrypt")
        [("ASSEMBLYAI_API_KEY", "garbage")] =
      .error "AssemblyAI API key not configured. Please add it in Settings." :=
  (getApiKey_corrupted_like_missing (fun _ => Except.error "bad decrypt")
    [("ASSEMBLYAI_API_KEY", "garbage")] "garbage" "bad decrypt" rfl rfl).2.2.1

/-! ## Processing orchestrator: data model

The Prisma rows the pipeline touches, with the fields `processMeeting`
reads or writes.  Timestamps are abstract (`now` is a parameter);
generated row ids come from a per-database counter. -/

/-- The Prisma `ProcessingStatus` enum. -/
inductive ProcessingStatus where
  | PENDING
  | TRANSCRIBING
  | ANALYZING
  | COMPLETED
  | FAILED
deriving DecidableEq, Repr

/-- A `Meeting` row. -/
structure MeetingRow where
  id : String
  userId : String
  title : String
  status : ProcessingStatus
  processingError : Option String
  storagePath : String
  aiInstructions : Option String
  duration : Option Int
  language : Option Language
  processedAt : Option Nat
deriving DecidableEq, Repr

/-- A `Speaker` row. -/
structure SpeakerRow where
  id : Nat
  meetingId : String
  speakerIndex : Nat
  label : Option String
  color : String
deriving DecidableEq, Repr

/-- A `Transcript` row. -/
structure TranscriptRow where
  id : Nat
  meetingId : String
  fullText : String
  rawResponse : AssemblyAITranscript
deriving DecidableEq, Repr

/-- An `Utterance` row (owned by a transcript, ordered by `orderIndex`). -/
structure UtteranceRow where
  transcriptId : Nat
  speakerId : Nat
  text : String
  startTime : Rat
  endTime : Rat
  confidence : Rat
  orderIndex : Nat
deriving DecidableEq, Repr

/-- The typed `Topic` of the analysis interface. -/
structure Topic where
  title : String
  description : String
  importance : Int
deriving DecidableEq, Repr

/-- The typed `KeyPoint`. -/
structure KeyPoint where
  point : String
  context : Option String
  speakerIndex : Option Int
deriving DecidableEq, Repr

/-- The typed `ActionItem`. -/
structure ActionItem where
  item : String
  assignee : Option String
  priority : String
deriving DecidableEq, Repr

/-- The typed `SpeakerName`. -/
structure SpeakerName where
  speakerIndex : Int
  name : String
deriving DecidableEq, Repr

/-- The typed `AnalysisResult` consumed by the orchestrator. -/
structure AnalysisResult where
  summary : String
  topics : List Topic
  keyPoints : List KeyPoint
  actionItems : List ActionItem
  speakerNames : List SpeakerName
  meetingDocument : String
deriving DecidableEq, Repr

/-- An `Analysis` row. -/
structure AnalysisRow where
  meetingId : String
  summary : String
  meetingDocument : Option String
  topics : List Topic
  keyPoints : List KeyPoint
  actionItems : List ActionItem
deriving DecidableEq, Repr

/-- The relational store as the pipeline sees it. -/
structure Db where
  meetings : List MeetingRow
  transcripts : List TranscriptRow
  utterances : List UtteranceRow
  speakers : List SpeakerRow
  analyses : List AnalysisRow
  nextId : Nat
deriving DecidableEq, Repr

/-- `prisma.meeting.findUnique({ where: { id } })`. -/
def findIn : List MeetingRow → String → Option MeetingRow
  | [], _ => none
  | m :: rest, mid => if m.id = mid then some m else findIn rest mid

/-- Meeting lookup by id. -/
def findMeeting (db : Db) (mid : String) : Option MeetingRow :=
  findIn db.meetings mid

/-- `prisma.meeting.update({ where: { id }, data })`. -/
def updMeeting (db : Db) (mid : String) (f : MeetingRow → MeetingRow) : Db :=
  { db with meetings := db.meetings.map (fun m => if m.id = mid then f m else m) }

/-- JS `Math.round` (round half toward positive infinity). -/
def jsRound (q : Rat) : Int := Rat.floor (q + 1 / 2)

/-- A `Map` built from key/value pairs: a later pair overwrites an
earlier one, as successive `Map.set` calls do. -/
def lookupLast {κ α : Type} [DecidableEq κ] (l : List (κ × α)) (k : κ) : Option α :=
  alookup l.reverse k

/-! ## Processing orchestrator: the save transaction and `processMeeting` -/

/-- The `tx.speaker.create` calls: one row per transcription speaker
index, ids drawn consecutively from `base`; the label is the
Gemini-identified name via `speakerNameMap.get(speakerIndex) || null`. -/
def mkSpeakerRows (mid : String) (nameMap : Nat → Option String) (base : Nat) :
    List Nat → List SpeakerRow
  | [] => []
  | i :: rest =>
    { id := base
      meetingId := mid
      speakerIndex := i
      label :=
        match nameMap i with
        | some n => if n = "" then none else some n
        | none => none
      color := getSpeakerColor i } :: mkSpeakerRows mid nameMap (base + 1) rest

/-- The nested `utterances.create` entries: `speakerId` resolved through
the speaker-record map (`speakerMap.get(u.speaker)!`), `orderIndex` the
position in the transcription result. -/
def mkUtteranceRows (tid : Nat) (speakerMap : Nat → Option Nat) (idx : Nat) :
    List Utterance → List UtteranceRow
  | [] => []
  | u :: rest =>
    { transcriptId := tid
      speakerId := (speakerMap u.speaker).getD 0
      text := u.text
      startTime := u.start
      endTime := u.«end»
      confidence := u.confidence
      orderIndex := idx } :: mkUtteranceRows tid speakerMap (idx + 1) rest

/-- The `prisma.$transaction` body of `processMeeting`: delete every
prior `Utterance`/`Transcript`/`Speaker`/`Analysis` row of the meeting,
create the new speakers, the new transcript with its utterances and the
new analysis, and flip the meeting to `COMPLETED` with `duration`,
`language` and `processedAt` — all as one atomic step. -/
def runTransaction (db : Db) (mid : String) (tr : TranscriptionResult)
    (an : AnalysisResult) (now : Nat) : Db :=
  let utterances1 := db.utterances.filter (fun u =>
    !(db.transcripts.any (fun t => t.id == u.transcriptId && t.meetingId == mid)))
  let transcripts1 := db.transcripts.filter (fun t => t.meetingId != mid)
  let speakers1 := db.speakers.filter (fun s => s.meetingId != mid)
  let analyses1 := db.analyses.filter (fun a => a.meetingId != mid)
  let nameMap : Nat → Option String := fun i =>
    lookupLast (an.speakerNames.map (fun s => (s.speakerIndex, s.name))) (i : Int)
  let speakerRecords := mkSpeakerRows mid nameMap db.nextId tr.speakers
  let speakerMap : Nat → Option Nat := fun i =>
    lookupLast (speakerRecords.map (fun s => (s.speakerIndex, s.id))) i
  let tid := db.nextId + tr.speakers.length
  let newTranscript : TranscriptRow :=
    { id := tid, meetingId := mid, fullText := tr.fullText, rawResponse := tr.rawResponse }
  let newUtterances := mkUtteranceRows tid speakerMap 0 tr.utterances
  let newAnalysis : AnalysisRow :=
    { meetingId := mid
      summary := an.summary
      meetingDocument := if an.meetingDocument = "" then none else some an.meetingDocument
      topics := an.topics
      keyPoints := an.keyPoints
      actionItems := an.actionItems }
  { meetings := (updMeeting db mid (fun m =>
      { m with
        status := .COMPLETED
        duration := some (jsRound tr.duration)
        language := some tr.detectedLanguage
        processedAt := some now })).meetings
    transcripts := transcripts1 ++ [newTranscript]
    utterances := utterances1 ++ newUtterances
    speakers := speakers1 ++ speakerRecords
    analyses := analyses1 ++ [newAnalysis]
    nextId := tid + 1 }

/-- Model of `processMeeting`.  The two external calls are injected as
outcomes (`transcription`, `analysis`): the pure orchestration around
them is translated from the source.  Returns the thrown-or-ok outcome
and the trace of database states a reader could observe: the initial
state and the state after each Prisma write (the transaction is a single
state). -/
def processMeeting (mid : String) (transcription : Except String TranscriptionResult)
    (analysis : Except String AnalysisResult) (now : Nat) (db : Db) :
    Except String Unit × List Db :=
  match findMeeting db mid with
  | none => (.error ("Meeting not found: " ++ mid), [db])
  | some _ =>
    let db1 := updMeeting db mid (fun m =>
      { m with status := .TRANSCRIBING, processingError := none })
    match transcription with
    | .error e =>
      let dbF := updMeeting db1 mid (fun m =>
        { m with status := .FAILED, processingError := some e })
      (.error e, [db, db1, dbF])
    | .ok tr =>
      let db2 := updMeeting db1 mid (fun m => { m with status := .ANALYZING })
      match analysis with
      | .error e =>
        let dbF := updMeeting db2 mid (fun m =>
          { m with status := .FAILED, processingError := some e })
        (.error e, [db, db1, db2, dbF])
      | .ok an =>
        let db3 := runTransaction db2 mid tr an now
        (.ok (), [db, db1, db2, db3])

/-- The status of the meeting in each observable database state. -/
def statusTrace (trace : List Db) (mid : String) : List ProcessingStatus :=
  trace.filterMap (fun d => (findMeeting d mid).map (fun m => m.status))

/-- The meeting's rows as a reader sees them: transcripts, speakers and
analyses keyed by the meeting id. -/
def rowsFor (db : Db) (mid : String) :
    List TranscriptRow × List SpeakerRow × List AnalysisRow :=
  (db.transcripts.filter (fun t => t.meetingId == mid),
   db.speakers.filter (fun s => s.meetingId == mid),
   db.analyses.filter (fun a => a.meetingId == mid))

/-! ## Orchestrator lemmas -/

/-- The thrown-or-ok outcome of a `processMeeting` invocation. -/
def pmOutcome (mid : String) (t : Except String TranscriptionResult)
    (a : Except String AnalysisResult) (now : Nat) (db : Db) : Except String Unit :=
  (processMeeting mid t a now db).1

/-- The observable database states of a `processMeeting` invocation. -/
def pmTrace (mid : String) (t : Except String TranscriptionResult)
    (a : Except String AnalysisResult) (now : Nat) (db : Db) : List Db :=
  (processMeeting mid t a now db).2

/-- The final database state of a `processMeeting` invocation. -/
def pmFinal (mid : String) (t : Except String TranscriptionResult)
    (a : Except String AnalysisResult) (now : Nat) (db : Db) : Db :=
  (pmTrace mid t a now db).getLastD db

lemma findIn_map_upd (ms : List MeetingRow) (mid : String) (f : MeetingRow → MeetingRow)
    (hf : ∀ m, (f m).id = m.id) :
    findIn (ms.map (fun m => if m.id = mid then f m else m)) mid =
      (findIn ms mid).map f := by
  induction ms with
  | nil => rfl
  | cons m rest ih =>
    by_cases h : m.id = mid
    · simp [findIn, h, hf m]
    · simp [findIn, h, ih]

lemma findMeeting_upd (db : Db) (mid : String) (f : MeetingRow → MeetingRow)
    (hf : ∀ m, (f m).id = m.id) :
    findMeeting (updMeeting db mid f) mid = (findMeeting db mid).map f :=
  findIn_map_upd db.meetings mid f hf

lemma filter_bne_then_beq {α : Type} (key : α → String) (mid : String) (l : List α) :
    (l.filter (fun a => key a != mid)).filter (fun a => key a == mid) = [] := by
  induction l with
  | nil => rfl
  | cons a t ih =>
    by_cases h : key a = mid
    · simp [List.filter_cons, h, ih]
    · simp [List.filter_cons, h, ih]

lemma filter_bne_idem {α : Type} (key : α → String) (mid : String) (l : List α) :
    (l.filter (fun a => key a != mid)).filter (fun a => key a != mid) =
      l.filter (fun a => key a != mid) := by
  induction l with
  | nil => rfl
  | cons a t ih =>
    by_cases h : key a = mid
    · simp [List.filter_cons, h, ih]
    · simp [List.filter_cons, h, ih]

lemma mkSpeakerRows_meetingId (mid : String) (nameMap : Nat → Option String)
    (l : List Nat) : ∀ base s, s ∈ mkSpeakerRows mid nameMap base l →
      s.meetingId = mid := by
  induction l with
  | nil => intro base s h; simp [mkSpeakerRows] at h
  | cons i rest ih =>
    intro base s h
    rcases List.mem_cons.mp h with h1 | h1
    · rw [h1]
    · exact ih (base + 1) s h1

lemma mkSpeakerRows_map_idx (mid : String) (nameMap : Nat → Option String)
    (l : List Nat) : ∀ base,
      (mkSpeakerRows mid nameMap base l).map (fun s => s.speakerIndex) = l := by
  induction l with
  | nil => intro base; rfl
  | cons i rest ih => intro base; simp [mkSpeakerRows, ih (base + 1)]

lemma mkUtteranceRows_transcriptId (tid : Nat) (f : Nat → Option Nat)
    (l : List Utterance) : ∀ i u, u ∈ mkUtteranceRows tid f i l →
      u.transcriptId = tid := by
  induction l with
  | nil => intro i u h; simp [mkUtteranceRows] at h
  | cons x rest ih =>
    intro i u h
    rcases List.mem_cons.mp h with h1 | h1
    · rw [h1]
    · exact ih (i + 1) u h1

/-- **C3.** A successful `processMeeting` run on a `PENDING` meeting moves
the meeting's status through exactly `PENDING`, `TRANSCRIBING`,
`ANALYZING`, `COMPLETED`, in that order, never skipping a state: the
observable status trace is that four-element sequence. -/
theorem processMeeting_success_status_trace (db : Db) (mid : String) (m : MeetingRow)
    (tr : TranscriptionResult) (an : AnalysisResult) (now : Nat)
    (hm : findMeeting db mid = some m) (hp : m.status = .PENDING) :
    statusTrace (pmTrace mid (.ok tr) (.ok an) now db) mid =
      [.PENDING, .TRANSCRIBING, .ANALYZING, .COMPLETED] := by
  have h1 : findMeeting (updMeeting db mid (fun x =>
      { x with status := ProcessingStatus.TRANSCRIBING, processingError := none })) mid =
      some { m with status := ProcessingStatus.TRANSCRIBING, processingError := none } := by
    have hu := findMeeting_upd db mid (fun x =>
      { x with status := ProcessingStatus.TRANSCRIBING, processingError := none })
      (fun _ => rfl)
    rw [hu, hm]; rfl
  have h2 : findMeeting (updMeeting (updMeeting db mid (fun x =>
        { x with status := ProcessingStatus.TRANSCRIBING, processingError := none })) mid
        (fun x => { x with status := ProcessingStatus.ANALYZING })) mid =
      some { m with status := ProcessingStatus.ANALYZING, processingError := none } := by
    have hu := findMeeting_upd (updMeeting db mid (fun x =>
      { x with status := ProcessingStatus.TRANSCRIBING, processingError := none })) mid
      (fun x => { x with status := ProcessingStatus.ANALYZING }) (fun _ => rfl)
    rw [hu, h1]; rfl
  have h3 : findMeeting (runTransaction (updMeeting (updMeeting db mid (fun x =>
        { x with status := ProcessingStatus.TRANSCRIBING, processingError := none })) mid
        (fun x => { x with status := ProcessingStatus.ANALYZING })) mid tr an now) mid =
      some { m with
        status := ProcessingStatus.COMPLETED
        processingError := none
        duration := some (jsRound tr.duration)
        language := some tr.detectedLanguage
        processedAt := some now } := by
    have hstep := findIn_map_upd (updMeeting (updMeeting db mid (fun x =>
        { x with status := ProcessingStatus.TRANSCRIBING, processingError := none })) mid
        (fun x => { x with status := ProcessingStatus.ANALYZING })).meetings mid
      (fun x => { x with
        status := ProcessingStatus.COMPLETED
        duration := some (jsRound tr.duration)
        language := some tr.detectedLanguage
        processedAt := some now }) (fun _ => rfl)
    rw [show findMeeting (runTransaction (updMeeting (updMeeting db mid (fun x =>
        { x with status := ProcessingStatus.TRANSCRIBING, processingError := none })) mid
        (fun x => { x with status := ProcessingStatus.ANALYZING })) mid tr an now) mid =
        findIn ((updMeeting (updMeeting (updMeeting db mid (fun x =>
        { x with status := ProcessingStatus.TRANSCRIBING, processingError := none })) mid
        (fun x => { x with status := ProcessingStatus.ANALYZING })) mid
        (fun x => { x with
          status := ProcessingStatus.COMPLETED
          duration := some (jsRound tr.duration)
          language := some tr.detectedLanguage
          processedAt := some now })).meetings) mid from rfl]
    rw [show (updMeeting (updMeeting (updMeeting db mid (fun x =>
        { x with status := ProcessingStatus.TRANSCRIBING, processingError := none })) mid
        (fun x => { x with status := ProcessingStatus.ANALYZING })) mid
        (fun x => { x with
          status := ProcessingStatus.COMPLETED
          duration := some (jsRound tr.duration)
          language := some tr.detectedLanguage
          processedAt := some now })).meetings =
        ((updMeeting (updMeeting db mid (fun x =>
        { x with status := ProcessingStatus.TRANSCRIBING, processingError := none })) mid
        (fun x => { x with status := ProcessingStatus.ANALYZING })).meetings).map
        (fun x => if x.id = mid then { x with
          status := ProcessingStatus.COMPLETED
          duration := some (jsRound tr.duration)
          language := some tr.detectedLanguage
          processedAt := some now } else x) from rfl]
    rw [hstep]
    rw [show findIn ((updMeeting (updMeeting db mid (fun x =>
        { x with status := ProcessingStatus.TRANSCRIBING, processingError := none })) mid
        (fun x => { x with status := ProcessingStatus.ANALYZING })).meetings) mid =
        findMeeting (updMeeting (updMeeting db mid (fun x =>
        { x with status := ProcessingStatus.TRANSCRIBING, processingError := none })) mid
        (fun x => { x with status := ProcessingStatus.ANALYZING })) mid from rfl]
    rw [h2]
    rfl
  simp only [pmTrace, processMeeting, hm, statusTrace, List.filterMap_cons,
    List.filterMap_nil, h1, h2, h3, hm, Option.map_some', hp]

/-- **C1.** If the transcription step or the analysis step of a
`processMeeting` invocation fails, the invocation rethrows the failure,
the meeting ends `FAILED` with `processingError` set to the failure's
message, and no observable database state — including the final one —
has any new `Transcript`, `Utterance`, `Speaker` or `Analysis` row: the
atomic multi-row write never begins. -/
theorem processMeeting_failure_rows_unchanged (db : Db) (mid : String) (m : MeetingRow)
    (now : Nat) (e : String) (tOut : Except String TranscriptionResult)
    (aOut : Except String AnalysisResult)
    (hm : findMeeting db mid = some m)
    (hfail : tOut = .error e ∨ (∃ tr, tOut = .ok tr ∧ aOut = .error e)) :
    pmOutcome mid tOut aOut now db = .error e ∧
    (∀ d ∈ pmTrace mid tOut aOut now db,
      d.transcripts = db.transcripts ∧ d.utterances = db.utterances ∧
      d.speakers = db.speakers ∧ d.analyses = db.analyses) ∧
    (∃ mF, findMeeting (pmFinal mid tOut aOut now db) mid = some mF ∧
      mF.status = .FAILED ∧ mF.processingError = some e) := by
  have h1 : findMeeting (updMeeting db mid (fun x =>
      { x with status := ProcessingStatus.TRANSCRIBING, processingError := none })) mid =
      some { m with status := ProcessingStatus.TRANSCRIBING, processingError := none } := by
    have hu := findMeeting_upd db mid (fun x =>
      { x with status := ProcessingStatus.TRANSCRIBING, processingError := none })
      (fun _ => rfl)
    rw [hu, hm]; rfl
  rcases hfail with rfl | ⟨tr, rfl, rfl⟩
  · refine ⟨?_, ?_, ?_⟩
    · simp [pmOutcome, processMeeting, hm]
    · intro d hd
      simp only [pmTrace, processMeeting, hm, List.mem_cons, List.not_mem_nil,
        or_false] at hd
      rcases hd with rfl | rfl | rfl
      · exact ⟨rfl, rfl, rfl, rfl⟩
      · exact ⟨rfl, rfl, rfl, rfl⟩
      · exact ⟨rfl, rfl, rfl, rfl⟩
    · refine ⟨{ m with status := ProcessingStatus.FAILED, processingError := some e }, ?_, rfl, rfl⟩
      have h2 : findMeeting (updMeeting (updMeeting db mid (fun x =>
          { x with status := ProcessingStatus.TRANSCRIBING, processingError := none })) mid
          (fun x => { x with status := ProcessingStatus.FAILED, processingError := some e })) mid =
          some { m with status := ProcessingStatus.FAILED, processingError := some e } := by
        have hu := findMeeting_upd (updMeeting db mid (fun x =>
          { x with status := ProcessingStatus.TRANSCRIBING, processingError := none })) mid
          (fun x => { x with status := ProcessingStatus.FAILED, processingError := some e })
          (fun _ => rfl)
        rw [hu, h1]; rfl
      simpa [pmFinal, pmTrace, processMeeting, hm, List.getLastD] using h2
  · have h2 : findMeeting (updMeeting (updMeeting db mid (fun x =>
        { x with status := ProcessingStatus.TRANSCRIBING, processingError := none })) mid
        (fun x => { x with status := ProcessingStatus.ANALYZING })) mid =
        some { m with status := ProcessingStatus.ANALYZING, processingError := none } := by
      have hu := findMeeting_upd (updMeeting db mid (fun x =>
        { x with status := ProcessingStatus.TRANSCRIBING, processingError := none })) mid
        (fun x => { x with status := ProcessingStatus.ANALYZING }) (fun _ => rfl)
      rw [hu, h1]; rfl
    refine ⟨?_, ?_, ?_⟩
    · simp [pmOutcome, processMeeting, hm]
    · intro d hd
      simp only [pmTrace, processMeeting, hm, List.mem_cons, List.not_mem_nil,
        or_false] at hd
      rcases hd with rfl | rfl | rfl | rfl
      · exact ⟨rfl, rfl, rfl, rfl⟩
      · exact ⟨rfl, rfl, rfl, rfl⟩
      · exact ⟨rfl, rfl, rfl, rfl⟩
      · exact ⟨rfl, rfl, rfl, rfl⟩
    · refine ⟨{ m with status := ProcessingStatus.FAILED, processingError := some e }, ?_, rfl, rfl⟩
      have h3 : findMeeting (updMeeting (updMeeting (updMeeting db mid (fun x =>
          { x with status := ProcessingStatus.TRANSCRIBING, processingError := none })) mid
          (fun x => { x with status := ProcessingStatus.ANALYZING })) mid
          (fun x => { x with status := ProcessingStatus.FAILED, processingError := some e })) mid =
          some { m with status := ProcessingStatus.FAILED, processingError := some e } := by
        have hu := findMeeting_upd (updMeeting (updMeeting db mid (fun x =>
          { x with status := ProcessingStatus.TRANSCRIBING, processingError := none })) mid
          (fun x => { x with status := ProcessingStatus.ANALYZING })) mid
          (fun x => { x with status := ProcessingStatus.FAILED, processingError := some e })
          (fun _ => rfl)
        rw [hu, h2]; rfl
      simpa [pmFinal, pmTrace, processMeeting, hm, List.getLastD] using h3

lemma runTransaction_replaces (d : Db) (mid : String) (tr : TranscriptionResult)
    (an : AnalysisResult) (now : Nat) :
    (((runTransaction d mid tr an now).transcripts.filter
        (fun t => t.meetingId == mid)).length = 1) ∧
    (((runTransaction d mid tr an now).analyses.filter
        (fun a => a.meetingId == mid)).length = 1) ∧
    (∀ t ∈ (runTransaction d mid tr an now).transcripts,
      t.meetingId = mid → t.fullText = tr.fullText) ∧
    (∀ a ∈ (runTransaction d mid tr an now).analyses,
      a.meetingId = mid → a.summary = an.summary) ∧
    (((runTransaction d mid tr an now).speakers.filter
        (fun s => s.meetingId == mid)).map (fun s => s.speakerIndex) = tr.speakers) ∧
    (∀ u ∈ (runTransaction d mid tr an now).utterances,
      u.transcriptId = d.nextId + tr.speakers.length ∨
      (d.transcripts.any (fun t => t.id == u.transcriptId && t.meetingId == mid)) = false) ∧
    (∀ mm, findMeeting d mid = some mm →
      findMeeting (runTransaction d mid tr an now) mid =
        some { mm with
          status := ProcessingStatus.COMPLETED
          duration := some (jsRound tr.duration)
          language := some tr.detectedLanguage
          processedAt := some now }) ∧
    ((runTransaction d mid tr an now).transcripts.filter (fun t => t.meetingId != mid) =
      d.transcripts.filter (fun t => t.meetingId != mid)) ∧
    ((runTransaction d mid tr an now).speakers.filter (fun s => s.meetingId != mid) =
      d.speakers.filter (fun s => s.meetingId != mid)) ∧
    ((runTransaction d mid tr an now).analyses.filter (fun a => a.meetingId != mid) =
      d.analyses.filter (fun a => a.meetingId != mid)) := by
  have etr : (runTransaction d mid tr an now).transcripts =
      d.transcripts.filter (fun t => t.meetingId != mid) ++
        [{ id := d.nextId + tr.speakers.length, meetingId := mid,
           fullText := tr.fullText, rawResponse := tr.rawResponse }] := rfl
  have ean : (runTransaction d mid tr an now).analyses =
      d.analyses.filter (fun a => a.meetingId != mid) ++
        [{ meetingId := mid
           summary := an.summary
           meetingDocument := if an.meetingDocument = "" then none else some an.meetingDocument
           topics := an.topics
           keyPoints := an.keyPoints
           actionItems := an.actionItems }] := rfl
  have esp : (runTransaction d mid tr an now).speakers =
      d.speakers.filter (fun s => s.meetingId != mid) ++
        mkSpeakerRows mid (fun i =>
          lookupLast (an.speakerNames.map (fun s => (s.speakerIndex, s.name))) (i : Int))
          d.nextId tr.speakers := rfl
  have eut : (runTransaction d mid tr an now).utterances =
      d.utterances.filter (fun u =>
        !(d.transcripts.any (fun t => t.id == u.transcriptId && t.meetingId == mid))) ++
        mkUtteranceRows (d.nextId + tr.speakers.length) (fun i =>
          lookupLast ((mkSpeakerRows mid (fun i =>
            lookupLast (an.speakerNames.map (fun s => (s.speakerIndex, s.name))) (i : Int))
            d.nextId tr.speakers).map (fun s => (s.speakerIndex, s.id))) i)
          0 tr.utterances := rfl
  refine ⟨?_, ?_, ?_, ?_, ?_, ?_, ?_, ?_, ?_, ?_⟩
  · rw [etr, List.filter_append, filter_bne_then_beq (fun t : TranscriptRow => t.meetingId)]
    simp [List.filter_cons]
  · rw [ean, List.filter_append, filter_bne_then_beq (fun a : AnalysisRow => a.meetingId)]
    simp [List.filter_cons]
  · intro t ht hmid
    rw [etr] at ht
    rcases List.mem_append.mp ht with h1 | h1
    · have := (List.mem_filter.mp h1).2
      simp only [bne_iff_ne, ne_eq] at this
      exact absurd hmid this
    · rcases List.mem_singleton.mp h1 with rfl
      rfl
  · intro a ha hmid
    rw [ean] at ha
    rcases List.mem_append.mp ha with h1 | h1
    · have := (List.mem_filter.mp h1).2
      simp only [bne_iff_ne, ne_eq] at this
      exact absurd hmid this
    · rcases List.mem_singleton.mp h1 with rfl
      rfl
  · rw [esp, List.filter_append, filter_bne_then_beq (fun s : SpeakerRow => s.meetingId)]
    rw [List.filter_eq_self.mpr ?_]
    · rw [List.nil_append]
      exact mkSpeakerRows_map_idx mid _ tr.speakers d.nextId
    · intro s hs
      have := mkSpeakerRows_meetingId mid _ tr.speakers d.nextId s hs
      simp [this]
  · intro u hu
    rw [eut] at hu
    rcases List.mem_append.mp hu with h1 | h1
    · right
      have := (List.mem_filter.mp h1).2
      simpa using this
    · left
      exact mkUtteranceRows_transcriptId _ _ tr.utterances 0 u h1
  · intro mm hmm
    show findMeeting (updMeeting d mid (fun x =>
      { x with
        status := ProcessingStatus.COMPLETED
        duration := some (jsRound tr.duration)
        language := some tr.detectedLanguage
        processedAt := some now })) mid =
      some { mm with
        status := ProcessingStatus.COMPLETED
        duration := some (jsRound tr.duration)
        language := some tr.detectedLanguage
        processedAt := some now }
    have hu := findMeeting_upd d mid (fun x =>
      { x with
        status := ProcessingStatus.COMPLETED
        duration := some (jsRound tr.duration)
        language := some tr.detectedLanguage
        processedAt := some now }) (fun _ => rfl)
    rw [hu, hmm]
    rfl
  · rw [etr, List.filter_append, filter_bne_idem (fun t : TranscriptRow => t.meetingId)]
    simp [List.filter_cons]
  · have hnil : (mkSpeakerRows mid (fun i =>
        lookupLast (an.speakerNames.map (fun s => (s.speakerIndex, s.name))) (i : Int))
        d.nextId tr.speakers).filter (fun s => s.meetingId != mid) = [] := by
      rw [List.filter_eq_nil_iff]
      intro s hs
      have := mkSpeakerRows_meetingId mid _ tr.speakers d.nextId s hs
      simp [this]
    rw [esp, List.filter_append, filter_bne_idem (fun s : SpeakerRow => s.meetingId),
      hnil, List.append_nil]
  · rw [ean, List.filter_append, filter_bne_idem (fun a : AnalysisRow => a.meetingId)]
    simp [List.filter_cons]

/-- **C2.** On every successful `processMeeting` run the prior
`Transcript`/`Utterance`/`Speaker`/`Analysis` rows of the meeting are
deleted and the new rows written together with the `COMPLETED` status
flip in one atomic step: afterwards the meeting has exactly one
transcript and one analysis (carrying the new transcription/analysis
data), its speakers are exactly the new speaker indices, no utterance of
a prior transcript of the meeting survives, rows of other meetings are
untouched, and every observable database state during the run shows
either the old rows or the complete new rows — never a partial set.
Re-running on a FAILED meeting thus fully replaces any stale state. -/
theorem processMeeting_success_replaces (db : Db) (mid : String) (m : MeetingRow)
    (tr : TranscriptionResult) (an : AnalysisResult) (now : Nat)
    (hm : findMeeting db mid = some m) :
    pmOutcome mid (.ok tr) (.ok an) now db = .ok () ∧
    ((pmFinal mid (.ok tr) (.ok an) now db).transcripts.filter (fun t => t.meetingId == mid)).length = 1 ∧
    ((pmFinal mid (.ok tr) (.ok an) now db).analyses.filter (fun a => a.meetingId == mid)).length = 1 ∧
    (∀ t ∈ (pmFinal mid (.ok tr) (.ok an) now db).transcripts, t.meetingId = mid → t.fullText = tr.fullText) ∧
    (∀ a ∈ (pmFinal mid (.ok tr) (.ok an) now db).analyses, a.meetingId = mid → a.summary = an.summary) ∧
    ((pmFinal mid (.ok tr) (.ok an) now db).speakers.filter (fun s => s.meetingId == mid)).map
      (fun s => s.speakerIndex) = tr.speakers ∧
    (∀ u ∈ (pmFinal mid (.ok tr) (.ok an) now db).utterances,
      u.transcriptId = db.nextId + tr.speakers.length ∨
      (db.transcripts.any (fun t => t.id == u.transcriptId && t.meetingId == mid)) = false) ∧
    (∃ mC, findMeeting (pmFinal mid (.ok tr) (.ok an) now db) mid = some mC ∧
      mC.status = .COMPLETED ∧ mC.processingError = none ∧ mC.processedAt = some now) ∧
    (pmFinal mid (.ok tr) (.ok an) now db).transcripts.filter (fun t => t.meetingId != mid) =
      db.transcripts.filter (fun t => t.meetingId != mid) ∧
    (pmFinal mid (.ok tr) (.ok an) now db).speakers.filter (fun s => s.meetingId != mid) =
      db.speakers.filter (fun s => s.meetingId != mid) ∧
    (pmFinal mid (.ok tr) (.ok an) now db).analyses.filter (fun a => a.meetingId != mid) =
      db.analyses.filter (fun a => a.meetingId != mid) ∧
    (∀ d ∈ pmTrace mid (.ok tr) (.ok an) now db,
      (d.transcripts = db.transcripts ∧ d.utterances = db.utterances ∧
       d.speakers = db.speakers ∧ d.analyses = db.analyses) ∨
      (d.transcripts = (pmFinal mid (.ok tr) (.ok an) now db).transcripts ∧ d.utterances = (pmFinal mid (.ok tr) (.ok an) now db).utterances ∧
       d.speakers = (pmFinal mid (.ok tr) (.ok an) now db).speakers ∧ d.analyses = (pmFinal mid (.ok tr) (.ok an) now db).analyses)) := by
  have hfin : pmFinal mid (.ok tr) (.ok an) now db = runTransaction (updMeeting (updMeeting db mid (fun x =>
      { x with status := ProcessingStatus.TRANSCRIBING, processingError := none })) mid
      (fun x => { x with status := ProcessingStatus.ANALYZING })) mid tr an now := by
    simp only [pmFinal, pmTrace, processMeeting, hm]
    rfl
  have h1 : findMeeting (updMeeting db mid (fun x =>
      { x with status := ProcessingStatus.TRANSCRIBING, processingError := none })) mid =
      some { m with status := ProcessingStatus.TRANSCRIBING, processingError := none } := by
    have hu := findMeeting_upd db mid (fun x =>
      { x with status := ProcessingStatus.TRANSCRIBING, processingError := none })
      (fun _ => rfl)
    rw [hu, hm]; rfl
  have h2 : findMeeting (updMeeting (updMeeting db mid (fun x =>
      { x with status := ProcessingStatus.TRANSCRIBING, processingError := none })) mid
      (fun x => { x with status := ProcessingStatus.ANALYZING })) mid =
      some { m with status := ProcessingStatus.ANALYZING, processingError := none } := by
    have hu := findMeeting_upd (updMeeting db mid (fun x =>
      { x with status := ProcessingStatus.TRANSCRIBING, processingError := none })) mid
      (fun x => { x with status := ProcessingStatus.ANALYZING }) (fun _ => rfl)
    rw [hu, h1]; rfl
  have hlem := runTransaction_replaces (updMeeting (updMeeting db mid (fun x =>
      { x with status := ProcessingStatus.TRANSCRIBING, processingError := none })) mid
      (fun x => { x with status := ProcessingStatus.ANALYZING })) mid tr an now
  refine ⟨?_, ?_, ?_, ?_, ?_, ?_, ?_, ?_, ?_, ?_, ?_, ?_⟩
  · simp [pmOutcome, processMeeting, hm]
  · rw [hfin]; exact hlem.1
  · rw [hfin]; exact hlem.2.1
  · rw [hfin]; exact hlem.2.2.1
  · rw [hfin]; exact hlem.2.2.2.1
  · rw [hfin]; exact hlem.2.2.2.2.1
  · rw [hfin]; exact hlem.2.2.2.2.2.1
  · rw [hfin]
    exact ⟨_, hlem.2.2.2.2.2.2.1 _ h2, rfl, rfl, rfl⟩
  · rw [hfin]; exact hlem.2.2.2.2.2.2.2.1
  · rw [hfin]; exact hlem.2.2.2.2.2.2.2.2.1
  · rw [hfin]; exact hlem.2.2.2.2.2.2.2.2.2
  · intro d hd
    simp only [pmTrace, processMeeting, hm, List.mem_cons, List.not_mem_nil,
      or_false] at hd
    rcases hd with rfl | rfl | rfl | rfl
    · exact Or.inl ⟨rfl, rfl, rfl, rfl⟩
    · exact Or.inl ⟨rfl, rfl, rfl, rfl⟩
    · exact Or.inl ⟨rfl, rfl, rfl, rfl⟩
    · refine Or.inr ?_
      rw [hfin]
      exact ⟨rfl, rfl, rfl, rfl⟩

/-! ## HTTP trigger handler (`POST /api/process/[id]`) -/

/-- A JSON response of the process route handler. -/
inductive ApiResponse where
  | err (status : Nat) (error : String)
  | accepted (status : Nat) (message : String) (st : ProcessingStatus)
deriving DecidableEq, Repr

/-- Model of the `POST` handler: authentication, the per-user rate-limit
check (injected as its boolean outcome plus `resetIn` for the 429
message), meeting lookup, ownership check, and the status-based gating;
on the happy path `processMeeting` is fired in the background (the last
component records that a run was started — the handler itself writes
nothing to the database). -/
def POST (session : Option String) (rateOk : Bool) (resetIn : Nat) (db : Db)
    (id : String) : ApiResponse × Db × Bool :=
  match session with
  | none => (.err 401 "Unauthorized", db, false)
  | some uid =>
    if rateOk = false then
      (.err 429 ("Too many processing requests. Try again in " ++
        Nat.repr resetIn ++ " seconds."), db, false)
    else
      match findMeeting db id with
      | none => (.err 404 "Meeting not found", db, false)
      | some meeting =>
        if meeting.userId ≠ uid then (.err 403 "Unauthorized", db, false)
        else if meeting.status = .COMPLETED then
          (.err 400 "Meeting already processed", db, false)
        else if meeting.status = .TRANSCRIBING ∨ meeting.status = .ANALYZING then
          (.err 400 "Meeting is already being processed", db, false)
        else (.accepted 200 "Processing started" .TRANSCRIBING, db, true)

/-- **C7.** An authorized, non-rate-limited start-processing request on a
meeting the caller owns is rejected with the "already processed" error
when the meeting is `COMPLETED`, and with the "already being processed"
error when it is `TRANSCRIBING` or `ANALYZING`; in both cases the
database is returned unchanged and no background pipeline run is
started. -/
theorem POST_rejects_completed_and_inflight (uid : String) (resetIn : Nat) (db : Db)
    (id : String) (meeting : MeetingRow)
    (hm : findMeeting db id = some meeting) (howner : meeting.userId = uid) :
    (meeting.status = .COMPLETED →
      POST (some uid) true resetIn db id =
        (.err 400 "Meeting already processed", db, false)) ∧
    ((meeting.status = .TRANSCRIBING ∨ meeting.status = .ANALYZING) →
      POST (some uid) true resetIn db id =
        (.err 400 "Meeting is already being processed", db, false)) := by
  constructor
  · intro hC
    simp [POST, hm, howner, hC]
  · intro hP
    have hnc : ¬ meeting.status = .COMPLETED := by
      rcases hP with h | h <;> simp [h]
    simp [POST, hm, howner, hnc, hP]

/-! ## Concrete witnesses for the orchestrator theorems -/

/-- A pending demo meeting. -/
def demoMeeting : MeetingRow :=
  { id := "m1", userId := "u1", title := "Standup", status := .PENDING,
    processingError := none, storagePath := "/data/m1.webm", aiInstructions := none,
    duration := none, language := none, processedAt := none }

/-- A database holding only the demo meeting. -/
def demoDb : Db :=
  { meetings := [demoMeeting], transcripts := [], utterances := [],
    speakers := [], analyses := [], nextId := 1 }

/-- A one-utterance transcription result. -/
def demoTr : TranscriptionResult :=
  { utterances := [{ speaker := 0, text := "hi", start := 0, «end» := 1, confidence := 1 }]
    speakers := [0]
    duration := 60
    fullText := "[Speaker 0]: hi"
    detectedLanguage := .ENGLISH
    rawResponse :=
      { id := "t9"
        status := .completed
        text := "hi"
        utterances :=
          some [{ speaker := "A", text := "hi", start := 0, «end» := 1000, confidence := 1 }]
        audio_duration := 60
        language_code := some "en"
        error := none } }

/-- A minimal analysis result. -/
def demoAn : AnalysisResult :=
  { summary := "sum", topics := [], keyPoints := [], actionItems := [],
    speakerNames := [], meetingDocument := "" }

theorem processMeeting_success_status_trace_witness :
    statusTrace (pmTrace "m1" (.ok demoTr) (.ok demoAn) 42 demoDb) "m1" =
      [.PENDING, .TRANSCRIBING, .ANALYZING, .COMPLETED] :=
  processMeeting_success_status_trace demoDb "m1" demoMeeting demoTr demoAn 42 rfl rfl

theorem processMeeting_failure_rows_unchanged_witness :
    pmOutcome "m1" (.error "boom") (.error "other") 7 demoDb = .error "boom" ∧
    (∀ d ∈ pmTrace "m1" (.error "boom") (.error "other") 7 demoDb,
      d.transcripts = demoDb.transcripts ∧ d.utterances = demoDb.utterances ∧
      d.speakers = demoDb.speakers ∧ d.analyses = demoDb.analyses) ∧
    (∃ mF, findMeeting (pmFinal "m1" (.error "boom") (.error "other") 7 demoDb) "m1" =
        some mF ∧ mF.status = .FAILED ∧ mF.processingError = some "boom") :=
  processMeeting_failure_rows_unchanged demoDb "m1" demoMeeting 7 "boom"
    (.error "boom") (.error "other") rfl (Or.inl rfl)

theorem processMeeting_success_replaces_witness :
    pmOutcome "m1" (.ok demoTr) (.ok demoAn) 42 demoDb = .ok () ∧
    ((pmFinal "m1" (.ok demoTr) (.ok demoAn) 42 demoDb).transcripts.filter (fun t => t.meetingId == "m1")).length = 1 ∧
    ((pmFinal "m1" (.ok demoTr) (.ok demoAn) 42 demoDb).analyses.filter (fun a => a.meetingId == "m1")).length = 1 ∧
    (∀ t ∈ (pmFinal "m1" (.ok demoTr) (.ok demoAn) 42 demoDb).transcripts, t.meetingId = "m1" → t.fullText = demoTr.fullText) ∧
    (∀ a ∈ (pmFinal "m1" (.ok demoTr) (.ok demoAn) 42 demoDb).analyses, a.meetingId = "m1" → a.summary = demoAn.summary) ∧
    ((pmFinal "m1" (.ok demoTr) (.ok demoAn) 42 demoDb).speakers.filter (fun s => s.meetingId == "m1")).map
      (fun s => s.speakerIndex) = demoTr.speakers ∧
    (∀ u ∈ (pmFinal "m1" (.ok demoTr) (.ok demoAn) 42 demoDb).utterances,
      u.transcriptId = demoDb.nextId + demoTr.speakers.length ∨
      (demoDb.transcripts.any (fun t => t.id == u.transcriptId && t.meetingId == "m1")) = false) ∧
    (∃ mC, findMeeting (pmFinal "m1" (.ok demoTr) (.ok demoAn) 42 demoDb) "m1" = some mC ∧
      mC.status = .COMPLETED ∧ mC.processingError = none ∧ mC.processedAt = some 42) ∧
    (pmFinal "m1" (.ok demoTr) (.ok demoAn) 42 demoDb).transcripts.filter (fun t => t.meetingId != "m1") =
      demoDb.transcripts.filter (fun t => t.meetingId != "m1") ∧
    (pmFinal "m1" (.ok demoTr) (.ok demoAn) 42 demoDb).speakers.filter (fun s => s.meetingId != "m1") =
      demoDb.speakers.filter (fun s => s.meetingId != "m1") ∧
    (pmFinal "m1" (.ok demoTr) (.ok demoAn) 42 demoDb).analyses.filter (fun a => a.meetingId != "m1") =
      demoDb.analyses.filter (fun a => a.meetingId != "m1") ∧
    (∀ d ∈ pmTrace "m1" (.ok demoTr) (.ok demoAn) 42 demoDb,
      (d.transcripts = demoDb.transcripts ∧ d.utterances = demoDb.utterances ∧
       d.speakers = demoDb.speakers ∧ d.analyses = demoDb.analyses) ∨
      (d.transcripts = (pmFinal "m1" (.ok demoTr) (.ok demoAn) 42 demoDb).transcripts ∧ d.utterances = (pmFinal "m1" (.ok demoTr) (.ok demoAn) 42 demoDb).utterances ∧
       d.speakers = (pmFinal "m1" (.ok demoTr) (.ok demoAn) 42 demoDb).speakers ∧ d.analyses = (pmFinal "m1" (.ok demoTr) (.ok demoAn) 42 demoDb).analyses)) :=
  processMeeting_success_replaces demoDb "m1" demoMeeting demoTr demoAn 42 rfl

/-- A completed demo meeting and a database holding it. -/
def demoCompleted : MeetingRow :=
  { demoMeeting with id := "m2", status := .COMPLETED }

/-- A database holding only the completed demo meeting. -/
def demoDb2 : Db :=
  { demoDb with meetings := [demoCompleted] }

theorem POST_rejects_completed_and_inflight_witness :
    POST (some "u1") true 30 demoDb2 "m2" =
      (.err 400 "Meeting already processed", demoDb2, false) :=
  (POST_rejects_completed_and_inflight "u1" 30 demoDb2 "m2" demoCompleted rfl rfl).1 rfl

end MeetingAI
